import Mathlib

/-!
A shallow embedding of the refgenconf registry manager
(src/refgenconf/refgenconf.py), covering the genome → asset → tag
document tree, the path resolver, tag CRUD with retag propagation, the
parent-digest consistency check and the pull pipeline, together with
theorems settling the specification claims.

Nested PathExAttMap documents are embedded as association lists of
string keys (Python dicts keep insertion order; assignment of an
existing key keeps its position, assignment of a fresh key appends).
Optional keys of an entry are Option fields; indexing a missing key is
a thrown KeyError.  External collaborators (the locked YAML store, the
HTTP client, tar extraction, checksumming) are modelled as parameters;
the filesystem is a list of extant paths.
-/

namespace RefGen

/-- Association list lookup, first binding wins (Python dict indexing). -/
def alookup {α : Type} : List (String × α) → String → Option α
  | [], _ => none
  | (k, v) :: t, key => if k = key then some v else alookup t key

/-- Association list update: replace the binding in place when the key is
present, append otherwise (Python dict assignment semantics). -/
def aset {α : Type} (l : List (String × α)) (key : String) (v : α) :
    List (String × α) :=
  if (alookup l key).isSome then
    l.map (fun p => if p.1 = key then (key, v) else p)
  else l ++ [(key, v)]

/-- Association list deletion (Python del d[k]). -/
def aerase {α : Type} : List (String × α) → String → List (String × α)
  | [], _ => []
  | p :: t, key => if p.1 = key then aerase t key else p :: aerase t key

/-- The data stored under one tag name.  Every key of a tag entry is
optional in the document (CFG_ASSET_PATH_KEY, CFG_SEEK_KEYS_KEY,
CFG_ASSET_CHECKSUM_KEY, CFG_ASSET_PARENTS_KEY, CFG_ASSET_CHILDREN_KEY);
parent and child references are raw strings of the form asset:tag. -/
structure TagData where
  asset_path : Option String := none
  seek_keys : Option (List (String × String)) := none
  asset_digest : Option String := none
  asset_parents : Option (List String) := none
  asset_children : Option (List String) := none
deriving Repr, DecidableEq

/-- An asset entry: an optional default-tag pointer and an optional tag
map (CFG_ASSET_DEFAULT_TAG_KEY, CFG_ASSET_TAGS_KEY). -/
structure AssetData where
  default_tag : Option String := none
  tags : Option (List (String × TagData)) := none
deriving Repr, DecidableEq

/-- A genome entry: free-form attributes (description, checksum, ...)
plus an optional asset map (CFG_ASSETS_KEY). -/
structure GenomeData where
  attrs : List (String × String) := []
  assets : Option (List (String × AssetData)) := none
deriving Repr, DecidableEq

abbrev GenomesMap := List (String × GenomeData)

/-- The loaded configuration document.  The genomes map is Option
because remove_assets collapses an emptied map to None; the server URL
and schema-version handling of the constructor are outside the claims. -/
structure RefGenConf where
  genome_folder : String := ""
  genomes : Option GenomesMap := none
deriving Repr, DecidableEq

/-- The exception kinds the embedded operations can raise. -/
inductive RgcError where
  | MissingGenomeError
  | MissingAssetError
  | MissingTagError
  | MissingSeekKeyError
  | KeyError
  | IndexError
  | TypeError
  | ValueError
  | RefgenconfError
deriving Repr, DecidableEq

/-- The asset entry reached by genomes[g][CFG_ASSETS_KEY][a], when every
level exists. -/
def getAssetEntry (gm : GenomesMap) (g a : String) : Option AssetData :=
  (alookup gm g).bind fun ge => ge.assets.bind fun am => alookup am a

/-- The tag entry reached by genomes[g][CFG_ASSETS_KEY][a][CFG_ASSET_TAGS_KEY][t],
when every level exists. -/
def getTagEntry (gm : GenomesMap) (g a t : String) : Option TagData :=
  (getAssetEntry gm g a).bind fun ae => ae.tags.bind fun tm => alookup tm t

/-- In-place update of an existing tag entry (Python mutation of the
nested mapping); the identity when any level is missing. -/
def modifyTag (gm : GenomesMap) (g a t : String) (f : TagData → TagData) :
    GenomesMap :=
  match alookup gm g with
  | none => gm
  | some ge =>
    match ge.assets with
    | none => gm
    | some am =>
      match alookup am a with
      | none => gm
      | some ae =>
        match ae.tags with
        | none => gm
        | some tm =>
          match alookup tm t with
          | none => gm
          | some td =>
            aset gm g
              { ge with assets := some (aset am a { ae with tags := some (aset tm t (f td)) }) }

/-- Assignment genomes[g][assets][a][tags][t] = td into an existing tag
map (the retag copy step); the identity when the tag map is missing. -/
def setTagDirect (gm : GenomesMap) (g a t : String) (td : TagData) :
    GenomesMap :=
  match alookup gm g with
  | none => gm
  | some ge =>
    match ge.assets with
    | none => gm
    | some am =>
      match alookup am a with
      | none => gm
      | some ae =>
        match ae.tags with
        | none => gm
        | some tm =>
          aset gm g
            { ge with assets := some (aset am a { ae with tags := some (aset tm t td) }) }

/-- Source _assert_gat_exists: check the genome / asset / tag chain and,
unless allow_incomplete, that the tag has a seek-key section. -/
def assert_gat_exists (gm : GenomesMap) (gname : String)
    (aname tname : Option String) (allow_incomplete : Bool) :
    Except RgcError Unit :=
  match alookup gm gname with
  | none => .error .MissingGenomeError
  | some ge =>
    match aname with
    | none => .ok ()
    | some a =>
      match ge.assets.bind (fun am => alookup am a) with
      | none => .error .MissingAssetError
      | some ad =>
        match tname with
        | none => .ok ()
        | some t =>
          match ad.tags.bind (fun tm => alookup tm t) with
          | none => .error .MissingTagError
          | some td =>
            if td.seek_keys.isNone && !allow_incomplete then
              .error .MissingSeekKeyError
            else .ok ()

/-- Whether the char list pre starts the char list l. -/
def startsWithList : List Char → List Char → Bool
  | [], _ => true
  | _ :: _, [] => false
  | a :: as, b :: bs => a == b && startsWithList as bs

/-- Python str.startswith. -/
def sStartsWith (s pre : String) : Bool := startsWithList pre.data s.data

/-- Python str.endswith. -/
def sEndsWith (s suf : String) : Bool :=
  startsWithList suf.data.reverse s.data.reverse

/-- Source os.path.join on two POSIX components (CPython posixpath.join):
an absolute second component wins; an empty or slash-terminated first
component is extended directly; otherwise a separator is inserted. -/
def pjoin2 (a b : String) : String :=
  if sStartsWith b "/" then b
  else if a = "" then b
  else if sEndsWith a "/" then a ++ b
  else a ++ "/" ++ b

/-- Source _genome_asset_path.  The final try block turns a KeyError
from either the seek-key lookup or the asset-path access into
MissingSeekKeyError; the seek-key-free branches index the path key
directly, so a missing path key is a plain KeyError there. -/
def genome_asset_path (gm : GenomesMap) (gname aname tname : String)
    (seek_key : Option String) (enclosing_dir : Bool) :
    Except RgcError String :=
  match assert_gat_exists gm gname (some aname) (some tname) false with
  | .error e => .error e
  | .ok _ =>
    let td := (getTagEntry gm gname aname tname).getD {}
    if enclosing_dir then
      match td.asset_path with
      | none => .error .KeyError
      | some p => .ok (pjoin2 p tname)
    else
      let sk := td.seek_keys.getD []
      let key2 : Option String :=
        match seek_key with
        | none => if (alookup sk aname).isSome then some aname else none
        | some k => some k
      match key2 with
      | none =>
        match td.asset_path with
        | none => .error .KeyError
        | some p => .ok (pjoin2 p tname)
      | some k =>
        match alookup sk k, td.asset_path with
        | some v, some p =>
          .ok (pjoin2 (pjoin2 p tname) (if v = "." then "" else v))
        | _, _ => .error .MissingSeekKeyError

/-- Split a char list on a separator character (Python str.split). -/
def splitOnChar (sep : Char) : List Char → List (List Char)
  | [] => [[]]
  | c :: rest =>
    match splitOnChar sep rest with
    | [] => [[c]]
    | h :: t => if c = sep then [] :: h :: t else (c :: h) :: t

/-- Numeric value of a list of decimal digit characters. -/
def digitsVal (cs : List Char) : Nat :=
  cs.foldl (fun n c => n * 10 + (c.toNat - 48)) 0

/-- Value of a decimal string as numerator and count of fractional
digits, so that the denoted value is n / 10 ^ k; none when Python
float() would raise ValueError (empty string, more than one dot). -/
def decVal (cs : List Char) : Option (Nat × Nat) :=
  match splitOnChar '.' cs with
  | [i] => if i.isEmpty then none else some (digitsVal i, 0)
  | [i, f] =>
    if i.isEmpty && f.isEmpty then none
    else some (digitsVal i * 10 ^ f.length + digitsVal f, f.length)
  | _ => none

/-- Source _is_large_archive: ends with TB, or ends with GB with the
digits-and-dots value strictly greater than 5.  The float comparison of
the source is modelled with exact decimal arithmetic: n / 10 ^ k > 5
iff n > 5 * 10 ^ k; CPython float rounding cannot flip this strict
comparison for realistic size strings. -/
def is_large_archive (size : String) : Except RgcError Bool :=
  if sEndsWith size "TB" then .ok true
  else if sEndsWith size "GB" then
    match decVal (size.data.filter (fun c => c.isDigit || c == '.')) with
    | none => .error .ValueError
    | some nk => .ok (decide (nk.1 > 5 * 10 ^ nk.2))
  else .ok false

/-- Modelled from the spec: the constant default tag name DEFAULT_TAG
lives in const.py, which is not under src; the end-to-end scenario of
the spec fixes the name as default. -/
def DEFAULT_TAG : String := "default"

/-- Modelled from the spec: ubiquerg.parse_registry_path is external to
src; the spec records references as strings of the form asset:tag, so
the model splits on the colon and keeps anything else as an item with an
empty tag. -/
def prp (s : String) : String × String :=
  match splitOnChar ':' s.data with
  | [i, t] => (String.mk i, String.mk t)
  | _ => (s, "")

/-- Serialization of a reference, source "{}:{}".format(item, tag). -/
def serializeRef (item tag : String) : String := item ++ ":" ++ tag

/-- A reference string that parses and re-serializes to itself, i.e.
contains exactly one colon. -/
def canonRef (s : String) : Prop := serializeRef (prp s).1 (prp s).2 = s

instance canonRefDecidable (s : String) : Decidable (canonRef s) :=
  inferInstanceAs (Decidable (serializeRef (prp s).1 (prp s).2 = s))

/-- The single-entry rewrite the retag postcondition describes: the
entry equal to asset:tag becomes asset:new_tag, anything else is kept. -/
def specRewrite (asset tag new_tag : String) (s : String) : String :=
  if s = serializeRef asset tag then serializeRef asset new_tag else s

/-- Source _update_relatives_tags inner loop: parse every entry of a
relative list, retag the entries matching asset:tag, re-serialize the
rest. -/
def rewriteRefs (asset tag new_tag : String) (refs : List String) :
    List String :=
  refs.map (fun rel =>
    if (prp rel).1 = asset ∧ (prp rel).2 = tag then serializeRef asset new_tag
    else serializeRef (prp rel).1 (prp rel).2)

/-- The relative list a direction selects: the child list when updating
children, the parent list otherwise. -/
def relGet (update_children : Bool) (td : TagData) : Option (List String) :=
  if update_children then td.asset_children else td.asset_parents

/-- Replace the relative list a direction selects. -/
def relSet (update_children : Bool) (td : TagData) (l : List String) :
    TagData :=
  if update_children then { td with asset_children := some l }
  else { td with asset_parents := some l }

/-- One iteration of source _update_relatives_tags: skip (with a log
message) a relative whose tag entry is missing, otherwise rewrite its
relative list (an absent list key yields the empty updated list) and
assign it.  The intermediate update_relatives_assets extension of the
same key is overwritten by the assignment on the next source line, so
the net effect is the assignment; this requires the parsed relative tag
to be non-empty, which the theorems hypothesize. -/
def update_one_relative (gm : GenomesMap) (genome asset tag new_tag : String)
    (update_children : Bool) (r : String) : GenomesMap :=
  match getTagEntry gm genome (prp r).1 (prp r).2 with
  | none => gm
  | some _ =>
    modifyTag gm genome (prp r).1 (prp r).2 (fun td =>
      relSet update_children td
        (rewriteRefs asset tag new_tag ((relGet update_children td).getD [])))

/-- Source _update_relatives_tags: fold the single-relative update over
the captured relative list. -/
def update_relatives_tags (gm : GenomesMap) (genome asset tag new_tag : String)
    (relatives : List String) (update_children : Bool) : GenomesMap :=
  relatives.foldl
    (fun g r => update_one_relative g genome asset tag new_tag update_children r)
    gm

/-- Source get_default_tag, on the genomes map.  The result pairs the
returned tag with whether a RuntimeWarning was emitted (the info log of
the missing-bundle branch is not a warning).  A missing tag-map key
raises KeyError from inside the handler; an empty tag map raises
IndexError from keys()[0]. -/
def get_default_tag (gm : GenomesMap) (genome asset : String)
    (use_existing : Bool) : Except RgcError (String × Bool) :=
  match assert_gat_exists gm genome (some asset) none false with
  | .error _ => .ok (DEFAULT_TAG, false)
  | .ok _ =>
    let ae := (getAssetEntry gm genome asset).getD {}
    match ae.default_tag with
    | some d => .ok (d, false)
    | none =>
      if use_existing then
        match ae.tags with
        | none => .error .KeyError
        | some tm =>
          match tm with
          | [] => .error .IndexError
          | (t, _) :: _ => .ok (t, true)
      else .ok (DEFAULT_TAG, true)

/-- Source update_assets restricted to its one payload in this module,
the default-tag pointer: setdefault the genome, asset-map and asset
levels, then merge the pointer. -/
def update_assets (gm : GenomesMap) (genome asset : String)
    (default_tag : Option String) : GenomesMap :=
  let ge : GenomeData := (alookup gm genome).getD {}
  let am := ge.assets.getD []
  let ae : AssetData := (alookup am asset).getD {}
  let ae1 := match default_tag with
    | none => ae
    | some d => { ae with default_tag := some d }
  aset gm genome { ge with assets := some (aset am asset ae1) }

/-- Source set_default_pointer: assert the genome/asset bundle, then set
the pointer when it is missing, empty, or force is given. -/
def set_default_pointer (gm : GenomesMap) (genome asset tag : String)
    (force : Bool) : Except RgcError GenomesMap :=
  match assert_gat_exists gm genome (some asset) none false with
  | .error e => .error e
  | .ok _ =>
    let ae := (getAssetEntry gm genome asset).getD {}
    if ae.default_tag.isNone || ae.default_tag == some "" || force then
      .ok (update_assets gm genome asset (some tag))
    else .ok gm

/-- Merge of a data mapping into a tag entry (PXAM.update: present keys
of the update override, absent ones keep the base). -/
def mergeTag (base upd : TagData) : TagData :=
  { asset_path := upd.asset_path <|> base.asset_path,
    seek_keys := upd.seek_keys <|> base.seek_keys,
    asset_digest := upd.asset_digest <|> base.asset_digest,
    asset_parents := upd.asset_parents <|> base.asset_parents,
    asset_children := upd.asset_children <|> base.asset_children }

/-- Source update_tags: setdefault every level of the
genome/asset/tag chain into existence, then merge the data mapping into
the tag entry. -/
def update_tags (gm : GenomesMap) (genome asset tag : String)
    (data : Option TagData) : GenomesMap :=
  let ge : GenomeData := (alookup gm genome).getD {}
  let am := ge.assets.getD []
  let ae : AssetData := (alookup am asset).getD {}
  let tm := ae.tags.getD []
  let td : TagData := (alookup tm tag).getD {}
  let td1 := match data with
    | none => td
    | some d => mergeTag td d
  aset gm genome
    { ge with assets := some (aset am asset { ae with tags := some (aset tm tag td1) }) }

/-- Number of keys of an asset entry (Python len of the mapping). -/
def assetLen (ae : AssetData) : Nat :=
  (if ae.default_tag.isSome then 1 else 0) + (if ae.tags.isSome then 1 else 0)

/-- Number of keys of a genome entry (Python len of the mapping). -/
def genomeLen (ge : GenomeData) : Nat :=
  ge.attrs.length + (if ge.assets.isSome then 1 else 0)

/-- Source remove_assets with an explicitly resolved, non-empty tag
name: delete the tag entry, cascade the empty-container deletions of
_del_if_empty in source order, clear the default pointer when it named
the removed tag and the asset survived, and collapse an emptied genomes
map to None. -/
def remove_assets (doc : RefGenConf) (genome asset tag : String) :
    Except RgcError RefGenConf :=
  match doc.genomes with
  | none => .error .TypeError
  | some gm =>
    match alookup gm genome with
    | none => .error .KeyError
    | some ge =>
      match ge.assets with
      | none => .error .KeyError
      | some am =>
        match alookup am asset with
        | none => .error .KeyError
        | some ae =>
          match ae.tags with
          | none => .error .KeyError
          | some tm =>
            if (alookup tm tag).isNone then .error .KeyError
            else
              let tm1 := aerase tm tag
              let am1 := aset am asset { ae with tags := some tm1 }
              let am2 := if tm1.isEmpty then aerase am1 asset else am1
              let am3 := match alookup am2 asset with
                | some ae2 => if assetLen ae2 = 0 then aerase am2 asset else am2
                | none => am2
              let gm3 := aset gm genome { ge with assets := some am3 }
              let gm4 := if am3.isEmpty then aerase gm3 genome else gm3
              let gm5 := match alookup gm4 genome with
                | some ge4 => if genomeLen ge4 = 0 then aerase gm4 genome else gm4
                | none => gm4
              let gm6 := match alookup gm5 genome with
                | none => gm5
                | some ge5 =>
                  match ge5.assets with
                  | none => gm5
                  | some am5 =>
                    match alookup am5 asset with
                    | none => gm5
                    | some ae5 =>
                      match ae5.default_tag with
                      | none => gm5
                      | some d =>
                        if d = tag then
                          aset gm5 genome
                            { ge5 with assets := some (aset am5 asset { ae5 with default_tag := none }) }
                        else gm5
              .ok { doc with genomes := if gm6.isEmpty then none else some gm6 }

/-- Source tag_asset with both interactive prompts answered by the
confirm flag.  Returns the updated document and True on success, the
unchanged document and False on a user abort (the source returns None
for the overwrite abort and False for the relationship abort; both
leave the document untouched). -/
def tag_asset (doc : RefGenConf) (genome asset tag new_tag : String)
    (confirm : Bool) : Except RgcError (RefGenConf × Bool) :=
  match doc.genomes with
  | none => .error .TypeError
  | some gm =>
    match assert_gat_exists gm genome (some asset) (some tag) false with
    | .error e => .error e
    | .ok _ =>
      let ae := (getAssetEntry gm genome asset).getD {}
      let tm := ae.tags.getD []
      if (alookup tm new_tag).isSome && !confirm then .ok (doc, false)
      else
        let td := (alookup tm tag).getD {}
        let children := td.asset_children.getD []
        let parents := td.asset_parents.getD []
        if (!children.isEmpty || !parents.isEmpty) && !confirm then
          .ok (doc, false)
        else
          let gm1 :=
            if !children.isEmpty || !parents.isEmpty then
              update_relatives_tags
                (update_relatives_tags gm genome asset tag new_tag children false)
                genome asset tag new_tag parents true
            else gm
          let td1 := (getTagEntry gm1 genome asset tag).getD {}
          let gm2 := setTagDirect gm1 genome asset new_tag td1
          let ae2 := (getAssetEntry gm2 genome asset).getD {}
          match (if ae2.default_tag = some tag then
                   set_default_pointer gm2 genome asset new_tag true
                 else .ok gm2) with
          | .error e => .error e
          | .ok gm3 =>
            match remove_assets { doc with genomes := some gm3 } genome asset tag with
            | .error e => .error e
            | .ok doc4 => .ok (doc4, true)

/-- Source is_asset_complete: index the tag entry (KeyError when the
chain is missing) and check the required tag attributes.  Modelled from
the spec for the REQ_TAG_ATTRS constant of const.py (not under src):
invariant 2 says a tag is complete iff its seek-key map is present. -/
def is_asset_complete (gm : GenomesMap) (g a t : String) :
    Except RgcError Bool :=
  match getTagEntry gm g a t with
  | none => .error .KeyError
  | some td => .ok td.seek_keys.isSome

/-- Source _check_asset_digest for one parent reference.  The remote
digest endpoint is an oracle parameter.  The try block evaluates
is_asset_complete first (so a missing entry is a caught KeyError) and
catches KeyError, MissingAssetError, MissingGenomeError and
MissingSeekKeyError by adopting the remote digest; an existing entry is
compared, with a missing local digest key escaping as a KeyError and a
mismatch raising RefgenconfError. -/
def check_asset_digest (remote : String → String → String → String)
    (gm : GenomesMap) (genome ref : String) : Except RgcError GenomesMap :=
  let rd := prp ref
  let asset := rd.1
  let tag := rd.2
  let remote_digest := remote genome asset tag
  match is_asset_complete gm genome asset tag with
  | .error _ =>
    .ok (update_tags gm genome asset tag (some { asset_digest := some remote_digest }))
  | .ok complete =>
    match assert_gat_exists gm genome (some asset) (some tag) (!complete) with
    | .error e =>
      match e with
      | .KeyError | .MissingAssetError | .MissingGenomeError | .MissingSeekKeyError =>
        .ok (update_tags gm genome asset tag (some { asset_digest := some remote_digest }))
      | _ => .error e
    | .ok _ =>
      match getTagEntry gm genome asset tag with
      | none => .error .KeyError
      | some td =>
        match td.asset_digest with
        | none => .error .KeyError
        | some local_digest =>
          if remote_digest ≠ local_digest then .error .RefgenconfError
          else .ok gm

/-- The parent-digest list comprehension of pull_asset.  The iterable
archive_data[CFG_ASSET_PARENTS_KEY] is evaluated before the containment
guard, so a missing parents key raises KeyError.  The fold keeps the
document state reached before a raised error, as the in-place source
mutations do. -/
def check_parents (remote : String → String → String → String)
    (gm : GenomesMap) (genome : String) (parents : Option (List String)) :
    GenomesMap × Option RgcError :=
  match parents with
  | none => (gm, some .KeyError)
  | some ps =>
    ps.foldl
      (fun acc x =>
        match acc.2 with
        | some _ => acc
        | none =>
          match check_asset_digest remote acc.1 genome x with
          | .ok gm2 => (gm2, none)
          | .error e => (acc.1, some e))
      (gm, none)

/-- The remote metadata document a pull downloads (archive_data). -/
structure ArchiveData where
  asset_parents : Option (List String) := none
  archive_size : Option String := none
  archive_digest : Option String := none
  asset_path : Option String := none
  asset_digest : Option String := none
  seek_keys : Option (List (String × String)) := none
deriving Repr, DecidableEq

/-- Outcome of the archive download (the three caught urllib failure
classes, or success). -/
inductive DlOutcome where
  | ok
  | httpError
  | connRefused
  | tooShort
deriving Repr, DecidableEq

/-- External inputs of one pull: the parent-digest oracle, the remote
metadata, the download outcome, the checksum computed over the
downloaded archive, and the two interactive answers. -/
structure PullEnv where
  remoteDigest : String → String → String → String
  archiveData : ArchiveData
  dl : DlOutcome
  dlChecksum : String
  confirmReplace : Bool
  confirmLarge : Bool

/-- What pull_asset produced: its return value or an uncaught
exception. -/
inductive PullRes where
  | ret (asset : String) (path : Option String)
  | exn (e : RgcError)
deriving Repr, DecidableEq

/-- Result state of a pull: the outcome, the document and the extant
filesystem paths. -/
structure PullOut where
  res : PullRes
  doc : RefGenConf
  files : List String
deriving Repr, DecidableEq

/-- Remove a directory tree from the path list (shutil.rmtree). -/
def rmtree (files : List String) (dir : String) : List String :=
  files.filter (fun p => !(p == dir || sStartsWith p (dir ++ "/")))

/-- Modelled from the spec: ATTRS_COPY_PULL of const.py is not under
src; the commit step writes the copy-on-pull subset of the remote
metadata (path, seek keys, digest, relative lists) when present. -/
def pullCopyData (ad : ArchiveData) : TagData :=
  { asset_path := ad.asset_path,
    seek_keys := ad.seek_keys,
    asset_digest := ad.asset_digest,
    asset_parents := ad.asset_parents,
    asset_children := none }

/-- The extract-and-commit tail of pull_asset: untar into a scratch
directory, move the asset directory over the tag directory, drop the
scratch directory and the archive file, write the copy-on-pull fields,
set the default pointer without force, and return the remote asset
path (indexed directly, so its absence is a KeyError).  Persisting via
write() is external. -/
def pull_commit (env : PullEnv) (doc : RefGenConf) (files : List String)
    (genome asset tag tag_dir fpath : String) : PullOut :=
  let files4 := tag_dir :: files.erase fpath
  match doc.genomes with
  | none => { res := .exn .TypeError, doc := doc, files := files4 }
  | some gm =>
    let gm2 := update_tags gm genome asset tag (some (pullCopyData env.archiveData))
    match set_default_pointer gm2 genome asset tag false with
    | .error e =>
      { res := .exn e, doc := { doc with genomes := some gm2 }, files := files4 }
    | .ok gm3 =>
      let doc3 := { doc with genomes := some gm3 }
      match env.archiveData.asset_path with
      | none => { res := .exn .KeyError, doc := doc3, files := files4 }
      | some p => { res := .ret asset (some p), doc := doc3, files := files4 }

/-- pull_asset after the existing-directory branch: parent-digest
check, archive-size confirmation, directory creation, download,
checksum verification, then extract and commit.  A checksum mismatch
returns the asset with a null path, leaving the downloaded archive on
the filesystem and the document as the parent-check phase left it. -/
def pull_main (env : PullEnv) (doc : RefGenConf) (files : List String)
    (genome asset tag tag_dir genome_dir fpath : String) : PullOut :=
  let ad := env.archiveData
  match doc.genomes with
  | none => { res := .exn .TypeError, doc := doc, files := files }
  | some gm =>
    let pc := check_parents env.remoteDigest gm genome ad.asset_parents
    let doc1 := { doc with genomes := some pc.1 }
    match pc.2 with
    | some e => { res := .exn e, doc := doc1, files := files }
    | none =>
      match ad.archive_size with
      | none => { res := .exn .KeyError, doc := doc1, files := files }
      | some archsize =>
        match is_large_archive archsize with
        | .error e => { res := .exn e, doc := doc1, files := files }
        | .ok large =>
          if large && !env.confirmLarge then
            { res := .ret asset none, doc := doc1, files := files }
          else
            let files2 := if files.contains genome_dir then files else genome_dir :: files
            match env.dl with
            | .ok =>
              let files3 := fpath :: files2
              match ad.archive_digest with
              | some old =>
                if env.dlChecksum = old then
                  pull_commit env doc1 files3 genome asset tag tag_dir fpath
                else { res := .ret asset none, doc := doc1, files := files3 }
              | none => pull_commit env doc1 files3 genome asset tag tag_dir fpath
            | _ => { res := .ret asset none, doc := doc1, files := files2 }

/-- Source pull_asset for a resolved tag with unpack.  The unbound
environment-variable check, the default-tag resolution and the JSON
metadata download are external and assumed successful; the staging
paths are the joins the source builds (the tag directory is the
dirname of filepath(genome, asset, tag), i.e. folder/genome/asset/tag
for non-empty slash-free names).  The existing-directory branch applies
the three-valued force policy before anything else. -/
def pull_asset (env : PullEnv) (doc : RefGenConf) (files : List String)
    (genome asset tag : String) (force : Option Bool) : PullOut :=
  let tag_dir := pjoin2 (pjoin2 (pjoin2 doc.genome_folder genome) asset) tag
  let genome_dir := pjoin2 doc.genome_folder genome
  let fpath := pjoin2 genome_dir (asset ++ "__" ++ tag ++ ".tgz")
  if files.contains tag_dir then
    match force with
    | some false => { res := .ret asset (some tag_dir), doc := doc, files := files }
    | none =>
      if env.confirmReplace then
        pull_main env doc (rmtree files tag_dir) genome asset tag tag_dir genome_dir fpath
      else { res := .ret asset (some tag_dir), doc := doc, files := files }
    | some true =>
      pull_main env doc (rmtree files tag_dir) genome asset tag tag_dir genome_dir fpath
  else pull_main env doc files genome asset tag tag_dir genome_dir fpath

/-- Tag entry reached through an optional genomes map. -/
def docTagEntry (doc : RefGenConf) (g a t : String) : Option TagData :=
  doc.genomes.bind fun gm => getTagEntry gm g a t

/-- Asset entry reached through an optional genomes map. -/
def docAssetEntry (doc : RefGenConf) (g a : String) : Option AssetData :=
  doc.genomes.bind fun gm => getAssetEntry gm g a

/-- Genome entry reached through an optional genomes map. -/
def docGenomeEntry (doc : RefGenConf) (g : String) : Option GenomeData :=
  doc.genomes.bind fun gm => alookup gm g

/-- The parent references stored on a tag, the empty list when the key
or the entry is absent. -/
def tagParentsIn (gm : GenomesMap) (g a t : String) : List String :=
  (((getTagEntry gm g a t).getD {}).asset_parents).getD []

/-- The child references stored on a tag, the empty list when the key
or the entry is absent. -/
def tagChildrenIn (gm : GenomesMap) (g a t : String) : List String :=
  (((getTagEntry gm g a t).getD {}).asset_children).getD []

/-! ### Concrete example documents used by witnesses and counterexamples -/

/-- A fasta tag with a child reference to bowtie:t1 and a parent
reference to other:x. -/
def exTagFasta : TagData :=
  { asset_path := some "fasta", seek_keys := some [("fasta", "hg38.fa")],
    asset_digest := some "d1", asset_parents := some ["other:x"],
    asset_children := some ["bowtie:t1"] }

/-- A bowtie tag whose only seek key maps to the dot, with fasta:default
among its parents. -/
def exTagBowtie : TagData :=
  { asset_path := some "bowtie", seek_keys := some [("bowtie", ".")],
    asset_digest := some "d2", asset_parents := some ["fasta:default", "other:x"],
    asset_children := none }

/-- A tag listing fasta:default as its child. -/
def exTagOther : TagData :=
  { asset_path := some "o", seek_keys := some [("other", "f")],
    asset_digest := some "d3", asset_parents := none,
    asset_children := some ["fasta:default"] }

/-- A tag whose seek-key map does not contain its asset name. -/
def exTagSalmon : TagData :=
  { asset_path := some "salmon", seek_keys := some [("idx", "x")],
    asset_digest := some "d4", asset_parents := none, asset_children := none }

/-- An incomplete tag entry: a recorded digest but no seek-key section
(metadata populated without the data). -/
def exTagIncomplete : TagData :=
  { asset_path := none, seek_keys := none, asset_digest := some "aaa",
    asset_parents := none, asset_children := none }

/-- The example genomes map: one genome with a retaggable fasta asset,
its bowtie child, its other parent, a salmon asset without an
asset-named seek key, and an incomplete asset. -/
def exGm : GenomesMap :=
  [("hg38",
    { attrs := [("description", "human")],
      assets := some
        [("fasta", { default_tag := some "default",
                     tags := some [("default", exTagFasta)] }),
         ("bowtie", { default_tag := none, tags := some [("t1", exTagBowtie)] }),
         ("other", { default_tag := none, tags := some [("x", exTagOther)] }),
         ("salmon", { default_tag := none, tags := some [("s1", exTagSalmon)] }),
         ("inc", { default_tag := none, tags := some [("t", exTagIncomplete)] })] })]

/-- The example document over the example genomes map. -/
def exDoc : RefGenConf := { genome_folder := "/data", genomes := some exGm }

/-- A pull environment whose archive checksum does not match the
downloaded content, with an empty declared parent list. -/
def exEnvMismatch : PullEnv :=
  { remoteDigest := fun _ _ _ => "rd",
    archiveData :=
      { asset_parents := some [], archive_size := some "4GB",
        archive_digest := some "chk", asset_path := some "fasta",
        asset_digest := some "newd", seek_keys := some [("fasta", "f.fa")] },
    dl := .ok, dlChecksum := "WRONG", confirmReplace := true, confirmLarge := true }

/-- A pull environment whose remote metadata has no parent-reference
key at all. -/
def exEnvNoParents : PullEnv :=
  { remoteDigest := fun _ _ _ => "rd",
    archiveData :=
      { asset_parents := none, archive_size := some "4GB",
        archive_digest := some "chk", asset_path := some "fasta",
        asset_digest := some "newd", seek_keys := some [("fasta", "f.fa")] },
    dl := .ok, dlChecksum := "chk", confirmReplace := true, confirmLarge := true }

/-- A remote digest oracle that answers bbb for every query. -/
def exRemoteBbb : String → String → String → String := fun _ _ _ => "bbb"

/-- An asset with two tags whose default is the tag t. -/
def exTwoTagsAsset : AssetData :=
  { default_tag := some "t", tags := some [("t", exTagSalmon), ("u", exTagSalmon)] }

/-- A genomes map holding only the two-tag asset. -/
def exTwoTagsGm : GenomesMap :=
  [("g", { attrs := [], assets := some [("a", exTwoTagsAsset)] })]

/-- The document over the two-tag genomes map. -/
def exTwoTagsDoc : RefGenConf := { genome_folder := "/d", genomes := some exTwoTagsGm }

/-! ### Association-list lemmas -/

theorem alookup_eq_none_iff {α : Type} (l : List (String × α)) (k : String) :
    alookup l k = none ↔ ∀ p ∈ l, p.1 ≠ k := by
  induction l with
  | nil => simp [alookup]
  | cons p t ih =>
    obtain ⟨k1, v1⟩ := p
    by_cases h : k1 = k
    · subst h; simp [alookup]
    · simp [alookup, h, ih]

theorem alookup_append_of_none {α : Type} (l1 l2 : List (String × α)) (k : String)
    (h : alookup l1 k = none) : alookup (l1 ++ l2) k = alookup l2 k := by
  induction l1 with
  | nil => rfl
  | cons p t ih =>
    obtain ⟨k1, v1⟩ := p
    by_cases hk : k1 = k
    · simp [alookup, hk] at h
    · simp only [alookup, if_neg hk, List.cons_append] at h ⊢
      exact ih h

theorem alookup_append_of_some {α : Type} (l1 l2 : List (String × α)) (k : String)
    (v : α) (h : alookup l1 k = some v) : alookup (l1 ++ l2) k = some v := by
  induction l1 with
  | nil => simp [alookup] at h
  | cons p t ih =>
    obtain ⟨k1, v1⟩ := p
    by_cases hk : k1 = k
    · simp only [alookup, hk, if_pos rfl] at h ⊢
      simpa using h
    · simp only [alookup, if_neg hk, List.cons_append] at h ⊢
      exact ih h

theorem alookup_map_rep_self {α : Type} (l : List (String × α)) (k : String) (v : α) :
    alookup (l.map (fun p => if p.1 = k then (k, v) else p)) k =
      (alookup l k).map (fun _ => v) := by
  induction l with
  | nil => simp [alookup]
  | cons p t ih =>
    obtain ⟨k1, v1⟩ := p
    simp only [List.map_cons]
    by_cases hk : k1 = k
    · subst hk
      rw [if_pos rfl]
      simp [alookup]
    · rw [if_neg hk]
      simp only [alookup, if_neg hk, ih]

theorem alookup_map_rep_ne {α : Type} (l : List (String × α)) (k k2 : String)
    (v : α) (h : k2 ≠ k) :
    alookup (l.map (fun p => if p.1 = k then (k, v) else p)) k2 = alookup l k2 := by
  induction l with
  | nil => simp [alookup]
  | cons p t ih =>
    obtain ⟨k1, v1⟩ := p
    simp only [List.map_cons]
    by_cases hk : k1 = k
    · subst hk
      rw [if_pos rfl]
      simp only [alookup, if_neg (Ne.symm h), if_neg (fun hc : k1 = k2 => h hc.symm), ih]
    · rw [if_neg hk]
      simp only [alookup, ih]

theorem aset_of_isSome {α : Type} (l : List (String × α)) (k : String) (v : α)
    (h : (alookup l k).isSome) :
    aset l k v = l.map (fun p => if p.1 = k then (k, v) else p) := by
  unfold aset; rw [if_pos h]

theorem aset_of_none {α : Type} (l : List (String × α)) (k : String) (v : α)
    (h : alookup l k = none) : aset l k v = l ++ [(k, v)] := by
  unfold aset
  rw [h]
  rfl

theorem alookup_aset_self {α : Type} (l : List (String × α)) (k : String) (v : α) :
    alookup (aset l k v) k = some v := by
  by_cases h : (alookup l k).isSome
  · rw [aset_of_isSome _ _ _ h, alookup_map_rep_self]
    obtain ⟨w, hw⟩ := Option.isSome_iff_exists.mp h
    simp [hw]
  · have hn : alookup l k = none := Option.not_isSome_iff_eq_none.mp h
    rw [aset_of_none _ _ _ hn, alookup_append_of_none _ _ _ hn]
    simp [alookup]

theorem alookup_aset_ne {α : Type} (l : List (String × α)) (k k2 : String) (v : α)
    (h : k2 ≠ k) : alookup (aset l k v) k2 = alookup l k2 := by
  by_cases hs : (alookup l k).isSome
  · rw [aset_of_isSome _ _ _ hs, alookup_map_rep_ne _ _ _ _ h]
  · have hn : alookup l k = none := Option.not_isSome_iff_eq_none.mp hs
    rw [aset_of_none _ _ _ hn]
    by_cases h2 : (alookup l k2).isSome
    · obtain ⟨w, hw⟩ := Option.isSome_iff_exists.mp h2
      rw [hw, alookup_append_of_some _ _ _ _ hw]
    · have hn2 : alookup l k2 = none := Option.not_isSome_iff_eq_none.mp h2
      rw [hn2, alookup_append_of_none _ _ _ hn2]
      have : ¬k = k2 := fun hc => h hc.symm
      simp [alookup, this]

theorem aerase_cons0 {α : Type} (p : String × α) (t : List (String × α)) (k : String) :
    aerase (p :: t) k = if p.1 = k then aerase t k else p :: aerase t k := rfl

theorem alookup_aerase_self {α : Type} (l : List (String × α)) (k : String) :
    alookup (aerase l k) k = none := by
  induction l with
  | nil => rfl
  | cons p t ih =>
    obtain ⟨k1, v1⟩ := p
    by_cases hk : k1 = k
    · simp only [aerase, if_pos hk]
      exact ih
    · rw [aerase_cons0, if_neg hk]
      simp only [alookup, if_neg hk]
      exact ih

theorem alookup_aerase_ne {α : Type} (l : List (String × α)) (k k2 : String)
    (h : k2 ≠ k) : alookup (aerase l k) k2 = alookup l k2 := by
  induction l with
  | nil => rfl
  | cons p t ih =>
    obtain ⟨k1, v1⟩ := p
    by_cases hk : k1 = k
    · subst hk
      have hne : ¬k1 = k2 := fun hc => h hc.symm
      simp only [aerase, if_pos rfl, alookup, if_neg hne]
      exact ih
    · simp only [aerase, if_neg hk, alookup, ih]

theorem aset_aset {α : Type} (l : List (String × α)) (k : String) (v w : α) :
    aset (aset l k v) k w = aset l k w := by
  have h2 : (alookup (aset l k v) k).isSome := by rw [alookup_aset_self]; rfl
  by_cases hs : (alookup l k).isSome
  · rw [aset_of_isSome _ _ _ h2, aset_of_isSome _ _ _ hs, aset_of_isSome _ _ _ hs,
      List.map_map]
    apply List.map_congr_left
    intro p _
    by_cases hp : p.1 = k
    · simp [Function.comp, hp]
    · simp [Function.comp, hp]
  · have hn : alookup l k = none := Option.not_isSome_iff_eq_none.mp hs
    have hnotin : ∀ p ∈ l, p.1 ≠ k := (alookup_eq_none_iff l k).mp hn
    rw [aset_of_isSome _ _ _ h2, aset_of_none _ _ _ hn, aset_of_none _ _ _ hn,
      List.map_append]
    congr 1
    · have heach : ∀ p ∈ l, (fun p : String × α => if p.1 = k then (k, w) else p) p = id p :=
        fun p hp => by simp only [id]; rw [if_neg (hnotin p hp)]
      rw [List.map_congr_left heach, List.map_id]
    · simp

theorem aerase_append_single {α : Type} (l : List (String × α)) (k : String) (v : α)
    (h : ∀ p ∈ l, p.1 ≠ k) : aerase (l ++ [(k, v)]) k = aerase l k := by
  induction l with
  | nil => simp [aerase]
  | cons p t ih =>
    have hp : p.1 ≠ k := h p (List.mem_cons_self p t)
    simp only [List.cons_append, aerase_cons0, if_neg hp]
    rw [ih (fun q hq => h q (List.mem_cons_of_mem p hq))]

theorem aerase_aset {α : Type} (l : List (String × α)) (k : String) (v : α) :
    aerase (aset l k v) k = aerase l k := by
  by_cases hs : (alookup l k).isSome
  · rw [aset_of_isSome _ _ _ hs]
    clear hs
    induction l with
    | nil => rfl
    | cons p t ih =>
      obtain ⟨k1, v1⟩ := p
      simp only [List.map_cons]
      by_cases hk : k1 = k
      · rw [if_pos hk, aerase_cons0, aerase_cons0, if_pos hk, if_pos rfl]
        exact ih
      · rw [if_neg hk, aerase_cons0, aerase_cons0, if_neg hk, if_neg hk, ih]
  · have hn : alookup l k = none := Option.not_isSome_iff_eq_none.mp hs
    rw [aset_of_none _ _ _ hn]
    exact aerase_append_single _ _ _ ((alookup_eq_none_iff l k).mp hn)

theorem alookup_ne_nil {α : Type} {l : List (String × α)} {k : String} {v : α}
    (h : alookup l k = some v) : l.isEmpty = false := by
  cases l with
  | nil => simp [alookup] at h
  | cons p t => rfl

/-! ### Document getter inversions -/

theorem getAssetEntry_some_iff {gm : GenomesMap} {g a : String} {ae : AssetData} :
    getAssetEntry gm g a = some ae ↔
      ∃ ge am, alookup gm g = some ge ∧ ge.assets = some am ∧
        alookup am a = some ae := by
  simp only [getAssetEntry, Option.bind_eq_some]
  constructor
  · rintro ⟨ge, hg, am, hge, ha⟩
    exact ⟨ge, am, hg, hge, ha⟩
  · rintro ⟨ge, am, hg, hge, ha⟩
    exact ⟨ge, hg, am, hge, ha⟩

theorem getTagEntry_some_iff {gm : GenomesMap} {g a t : String} {td : TagData} :
    getTagEntry gm g a t = some td ↔
      ∃ ge am ae tm, alookup gm g = some ge ∧ ge.assets = some am ∧
        alookup am a = some ae ∧ ae.tags = some tm ∧ alookup tm t = some td := by
  simp only [getTagEntry, getAssetEntry, Option.bind_eq_some]
  constructor
  · rintro ⟨ae, ⟨ge, hg, am, hge, ha⟩, tm, hae, ht⟩
    exact ⟨ge, am, ae, tm, hg, hge, ha, hae, ht⟩
  · rintro ⟨ge, am, ae, tm, hg, hge, ha, hae, ht⟩
    exact ⟨ae, ⟨ge, hg, am, hge, ha⟩, tm, hae, ht⟩

theorem assert_gat_of_complete {gm : GenomesMap} {g a t : String} {td : TagData}
    (h : getTagEntry gm g a t = some td) (hc : td.seek_keys.isSome = true) :
    assert_gat_exists gm g (some a) (some t) false = .ok () := by
  obtain ⟨ge, am, ae, tm, hg, hge, ha, hae, ht⟩ := getTagEntry_some_iff.mp h
  obtain ⟨sk, hsk⟩ := Option.isSome_iff_exists.mp hc
  simp [assert_gat_exists, hg, hge, ha, hae, ht, hsk]

/-! ### Path resolution (claims C6 and C7) -/

theorem pjoin2_of_std (a b : String) (hb : sStartsWith b "/" = false)
    (ha : a ≠ "") (hae : sEndsWith a "/" = false) :
    pjoin2 a b = a ++ "/" ++ b := by
  simp [pjoin2, hb, ha, hae]

theorem startsWithList_single {c : Char} :
    ∀ (l1 l2 : List Char), l1 ≠ [] →
      startsWithList [c] (l1 ++ l2) = startsWithList [c] l1
  | [], _, h => absurd rfl h
  | a :: as, l2, _ => by simp [startsWithList]

theorem string_ne_empty_iff_data (s : String) : s ≠ "" ↔ s.data ≠ [] := by
  constructor
  · intro h hc
    exact h (by cases s with | mk d => simp_all)
  · intro h hc
    apply h
    rw [hc]

theorem data_append3 (p q t : String) :
    (p ++ q ++ t).data = (p.data ++ q.data) ++ t.data := by
  simp [String.data_append]

theorem sEndsWith_slash_append (p t : String) (ht : t ≠ "") :
    sEndsWith (p ++ "/" ++ t) "/" = sEndsWith t "/" := by
  unfold sEndsWith
  have hdata : (p ++ "/" ++ t).data.reverse = t.data.reverse ++ (p.data ++ ['/']).reverse := by
    rw [data_append3, List.reverse_append]
  rw [hdata]
  exact startsWithList_single _ _
    (by simpa using (string_ne_empty_iff_data t).mp ht)

theorem append3_ne_empty (p t : String) : p ++ "/" ++ t ≠ "" := by
  rw [string_ne_empty_iff_data, data_append3]
  simp

theorem pjoin2_empty_tail (s : String) (hs : s ≠ "") (hse : sEndsWith s "/" = false) :
    pjoin2 s "" = s ++ "/" ++ "" := by
  have hb : sStartsWith "" "/" = false := rfl
  exact pjoin2_of_std s "" hb hs hse

/-- C6: a seek-key value of exactly the dot string resolves to the tag
directory with a trailing separator and no further path component.
Amended from the claim: the returned string is storagePath/tagName/
(os.path.join with an empty last component appends the separator), not
the bare storagePath/tagName. -/
theorem c6_dot_seek_key_amended (gm : GenomesMap) (g a t k p : String)
    (td : TagData) (sk : List (String × String))
    (h : getTagEntry gm g a t = some td)
    (hsk : td.seek_keys = some sk)
    (hkv : alookup sk k = some ".")
    (hp : td.asset_path = some p)
    (hpne : p ≠ "") (hpe : sEndsWith p "/" = false)
    (htne : t ≠ "") (hts : sStartsWith t "/" = false)
    (hte : sEndsWith t "/" = false) :
    genome_asset_path gm g a t (some k) false = .ok (p ++ "/" ++ t ++ "/") := by
  have hassert := assert_gat_of_complete h (by rw [hsk]; rfl)
  have hjoin1 : pjoin2 p t = p ++ "/" ++ t := pjoin2_of_std p t hts hpne hpe
  have hempty : p ++ "/" ++ t ++ "/" ++ "" = p ++ "/" ++ t ++ "/" := by
    apply String.ext
    simp [String.data_append]
  have hjoin2 : pjoin2 (p ++ "/" ++ t) "" = p ++ "/" ++ t ++ "/" := by
    rw [pjoin2_empty_tail (p ++ "/" ++ t) (append3_ne_empty p t)
      (by rw [sEndsWith_slash_append p t htne]; exact hte)]
    exact hempty
  have hv : (if ("." : String) = "." then "" else ".") = "" := if_pos rfl
  simp only [genome_asset_path, hassert, h, Option.getD_some, hsk, hp, hkv,
    Bool.false_eq_true, if_false, hv, if_true, ite_true, hjoin1, hjoin2]

/-- C6 counterexample: with storage path p and tag name t, the dot seek
key resolves to the string with a trailing separator, which is not the
string storagePath/tagName the claim states. -/
theorem c6_counterexample :
    genome_asset_path exGm "hg38" "bowtie" "t1" (some "bowtie") false =
      .ok "bowtie/t1/" ∧ "bowtie/t1/" ≠ "bowtie/t1" := by
  exact ⟨rfl, by decide⟩

/-- C6 amended witness at a concrete document. -/
theorem c6_amended_witness :
    getTagEntry exGm "hg38" "bowtie" "t1" = some exTagBowtie ∧
    exTagBowtie.seek_keys = some [("bowtie", ".")] ∧
    alookup [("bowtie", ".")] "bowtie" = some "." ∧
    exTagBowtie.asset_path = some "bowtie" ∧
    genome_asset_path exGm "hg38" "bowtie" "t1" (some "bowtie") false =
      .ok ("bowtie" ++ "/" ++ "t1" ++ "/") :=
  ⟨rfl, rfl, rfl, rfl,
    c6_dot_seek_key_amended exGm "hg38" "bowtie" "t1" "bowtie" "bowtie"
      exTagBowtie [("bowtie", ".")] rfl rfl rfl rfl (by decide) (by decide)
      (by decide) (by decide) (by decide)⟩

/-- C7: with no seek key and no enclosing-directory request, the
resolver uses the seek key named like the asset when the tag has one,
and otherwise returns the bare tag directory storagePath/tagName. -/
theorem c7_no_seek_key_fallback (gm : GenomesMap) (g a t p : String)
    (td : TagData) (sk : List (String × String))
    (h : getTagEntry gm g a t = some td)
    (hsk : td.seek_keys = some sk)
    (hp : td.asset_path = some p) :
    ((alookup sk a).isSome = true →
      genome_asset_path gm g a t none false =
        genome_asset_path gm g a t (some a) false) ∧
    ((alookup sk a).isSome = false →
      genome_asset_path gm g a t none false = .ok (pjoin2 p t)) := by
  have hassert := assert_gat_of_complete h (by rw [hsk]; rfl)
  constructor
  · intro hin
    simp only [genome_asset_path, hassert, h, Option.getD_some, hsk, hp, hin,
      Bool.false_eq_true, if_false, if_true]
  · intro hout
    simp only [genome_asset_path, hassert, h, Option.getD_some, hsk, hp, hout,
      Bool.false_eq_true, if_false]

/-- C7 witness: the fasta tag has an asset-named seek key and resolves
through it; the salmon tag has none and resolves to the bare tag
directory. -/
theorem c7_witness :
    (getTagEntry exGm "hg38" "salmon" "s1" = some exTagSalmon ∧
     exTagSalmon.seek_keys = some [("idx", "x")] ∧
     exTagSalmon.asset_path = some "salmon" ∧
     (alookup [("idx", "x")] "salmon").isSome = false) ∧
    genome_asset_path exGm "hg38" "salmon" "s1" none false =
      .ok (pjoin2 "salmon" "s1") :=
  ⟨⟨rfl, rfl, rfl, rfl⟩,
    (c7_no_seek_key_fallback exGm "hg38" "salmon" "s1" "salmon" exTagSalmon
      [("idx", "x")] rfl rfl rfl).2 rfl⟩

/-! ### Default tag resolution (claim C9) -/

theorem assert_ga_of_exists {gm : GenomesMap} {g a : String} {ae : AssetData}
    (h : getAssetEntry gm g a = some ae) :
    assert_gat_exists gm g (some a) none false = .ok () := by
  obtain ⟨ge, am, hg, hge, ha⟩ := getAssetEntry_some_iff.mp h
  simp [assert_gat_exists, hg, hge, ha]

theorem get_default_tag_of_some {gm : GenomesMap} {g a d : String}
    {ae : AssetData} (h : getAssetEntry gm g a = some ae)
    (hd : ae.default_tag = some d) (ue : Bool) :
    get_default_tag gm g a ue = .ok (d, false) := by
  have hassert := assert_ga_of_exists h
  simp [get_default_tag, hassert, h, hd]

theorem set_default_pointer_of_none {gm : GenomesMap} {g a : String}
    {ae : AssetData} (t : String) (h : getAssetEntry gm g a = some ae)
    (hd : ae.default_tag = none) :
    set_default_pointer gm g a t false = .ok (update_assets gm g a (some t)) := by
  have hassert := assert_ga_of_exists h
  simp [set_default_pointer, hassert, h, hd]

theorem getAssetEntry_update_assets_self {gm : GenomesMap} {g a : String}
    {ae : AssetData} (d : String) (h : getAssetEntry gm g a = some ae) :
    getAssetEntry (update_assets gm g a (some d)) g a =
      some { ae with default_tag := some d } := by
  obtain ⟨ge, am, hg, hge, ha⟩ := getAssetEntry_some_iff.mp h
  simp only [update_assets, hg, Option.getD_some, hge, ha]
  simp [getAssetEntry, alookup_aset_self]

/-- C9: get_default_tag returns a recorded default without a warning;
with no default and use_existing it returns the first tag of the tag
map with a warning instead of an error; and after set_default_pointer
records a default, the next call returns it without a warning. -/
theorem c9_get_default_tag (gm : GenomesMap) (g a : String) (ae : AssetData)
    (h : getAssetEntry gm g a = some ae) :
    (∀ d, ae.default_tag = some d → get_default_tag gm g a true = .ok (d, false)) ∧
    (∀ t1 td1 rest, ae.default_tag = none →
      ae.tags = some ((t1, td1) :: rest) →
      get_default_tag gm g a true = .ok (t1, true)) ∧
    (∀ t, ae.default_tag = none →
      set_default_pointer gm g a t false = .ok (update_assets gm g a (some t)) ∧
      get_default_tag (update_assets gm g a (some t)) g a true = .ok (t, false)) := by
  refine ⟨fun d hd => get_default_tag_of_some h hd true,
    fun t1 td1 rest hd htags => ?_, fun t hd => ?_⟩
  · have hassert := assert_ga_of_exists h
    simp [get_default_tag, hassert, h, hd, htags]
  · refine ⟨set_default_pointer_of_none t h hd, ?_⟩
    exact get_default_tag_of_some (getAssetEntry_update_assets_self t h) rfl true

/-- C9 witness: the bowtie asset of the example document has no
default; its first tag is returned with a warning, and after setting
the default it is returned without one. -/
theorem c9_witness :
    (getAssetEntry exGm "hg38" "bowtie" =
      some { default_tag := none, tags := some [("t1", exTagBowtie)] }) ∧
    get_default_tag exGm "hg38" "bowtie" true = .ok ("t1", true) ∧
    get_default_tag (update_assets exGm "hg38" "bowtie" (some "t1")) "hg38"
      "bowtie" true = .ok ("t1", false) := by
  have h : getAssetEntry exGm "hg38" "bowtie" =
      some { default_tag := none, tags := some [("t1", exTagBowtie)] } := rfl
  exact ⟨h, (c9_get_default_tag exGm "hg38" "bowtie" _ h).2.1 "t1" exTagBowtie []
      rfl rfl,
    ((c9_get_default_tag exGm "hg38" "bowtie" _ h).2.2 "t1" rfl).2⟩

/-! ### Cascading deletion (claim C4) -/

theorem aset_isEmpty {α : Type} (l : List (String × α)) (k : String) (v : α) :
    (aset l k v).isEmpty = false :=
  alookup_ne_nil (alookup_aset_self l k v)

theorem aset_ne_nil {α : Type} (l : List (String × α)) (k : String) (v : α) :
    aset l k v ≠ [] := by
  intro hc
  have h := aset_isEmpty l k v
  rw [hc] at h
  simp at h

/-- Closed form of remove_assets when the asset keeps at least one
other tag: delete the tag binding and clear the default pointer iff it
named the removed tag. -/
theorem remove_assets_survive (doc : RefGenConf) (gm : GenomesMap)
    (g a t : String) (ge : GenomeData) (am : List (String × AssetData))
    (ae : AssetData) (tm : List (String × TagData)) (td0 : TagData)
    (hgm : doc.genomes = some gm) (hg : alookup gm g = some ge)
    (hge : ge.assets = some am) (ha : alookup am a = some ae)
    (hae : ae.tags = some tm) (ht : alookup tm t = some td0)
    (hne : (aerase tm t).isEmpty = false) :
    remove_assets doc g a t = .ok { doc with genomes := some (aset gm g
      { ge with assets := some (aset am a
        { ae with tags := some (aerase tm t),
                  default_tag := if ae.default_tag = some t then none
                                 else ae.default_tag }) }) } := by
  have hguard : (alookup tm t).isNone = false := by rw [ht]; rfl
  simp only [remove_assets, hgm, hg, hge, ha, hae, hguard, Bool.false_eq_true,
    if_false, hne, alookup_aset_self, aset_isEmpty, assetLen, genomeLen,
    Option.isSome_some, if_true, ite_true, aset_aset]
  cases hd : ae.default_tag with
  | none => simp [hd, aset_ne_nil, aset_aset, alookup_aset_self, aset_isEmpty]
  | some d =>
    by_cases hdt : d = t
    · subst hdt
      simp [hd, aset_ne_nil, aset_aset, alookup_aset_self, aset_isEmpty]
    · have h1 : ¬(some d = some t) := by simpa using hdt
      simp [hd, hdt, h1, aset_ne_nil, aset_aset, alookup_aset_self, aset_isEmpty]

/-- Closed form of remove_assets when the removed tag was the last one
but other assets remain: the asset is deleted with the tag. -/
theorem remove_assets_cascade_asset (doc : RefGenConf) (gm : GenomesMap)
    (g a t : String) (ge : GenomeData) (am : List (String × AssetData))
    (ae : AssetData) (tm : List (String × TagData)) (td0 : TagData)
    (hgm : doc.genomes = some gm) (hg : alookup gm g = some ge)
    (hge : ge.assets = some am) (ha : alookup am a = some ae)
    (hae : ae.tags = some tm) (ht : alookup tm t = some td0)
    (hemp : (aerase tm t).isEmpty = true)
    (hamne : (aerase am a).isEmpty = false) :
    remove_assets doc g a t =
      .ok { doc with genomes := some (aset gm g { ge with assets := some (aerase am a) }) } := by
  have hguard : (alookup tm t).isNone = false := by rw [ht]; rfl
  simp only [remove_assets, hgm, hg, hge, ha, hae, hguard, Bool.false_eq_true,
    if_false, hemp, if_true, ite_true, aerase_aset, alookup_aerase_self,
    alookup_aset_self]
  simp [hamne, aset_ne_nil, alookup_aset_self, alookup_aerase_self, aset_isEmpty,
    genomeLen, assetLen]

/-- Closed form of remove_assets when the removed tag was the last one
of the last asset: the genome goes too, and an emptied genomes map
collapses to None. -/
theorem remove_assets_cascade_genome (doc : RefGenConf) (gm : GenomesMap)
    (g a t : String) (ge : GenomeData) (am : List (String × AssetData))
    (ae : AssetData) (tm : List (String × TagData)) (td0 : TagData)
    (hgm : doc.genomes = some gm) (hg : alookup gm g = some ge)
    (hge : ge.assets = some am) (ha : alookup am a = some ae)
    (hae : ae.tags = some tm) (ht : alookup tm t = some td0)
    (hemp : (aerase tm t).isEmpty = true)
    (hame : (aerase am a).isEmpty = true) :
    remove_assets doc g a t =
      .ok { doc with genomes := if (aerase gm g).isEmpty then none else some (aerase gm g) } := by
  have hguard : (alookup tm t).isNone = false := by rw [ht]; rfl
  simp only [remove_assets, hgm, hg, hge, ha, hae, hguard, Bool.false_eq_true,
    if_false, hemp, if_true, ite_true, aerase_aset, alookup_aerase_self,
    alookup_aset_self]
  simp [hame, aset_ne_nil, alookup_aerase_self, aerase_aset]

/-- C4: removing an existing tag deletes its entry; the asset goes when
it was the last tag, the collection when it was the last asset, the
whole collection map collapses to an absent state when emptied, and a
default pointer naming the removed tag is cleared when the asset
survives. -/
theorem c4_remove_assets_cascade (doc : RefGenConf) (gm : GenomesMap)
    (g a t : String) (ge : GenomeData) (am : List (String × AssetData))
    (ae : AssetData) (tm : List (String × TagData)) (td0 : TagData)
    (hgm : doc.genomes = some gm) (hg : alookup gm g = some ge)
    (hge : ge.assets = some am) (ha : alookup am a = some ae)
    (hae : ae.tags = some tm) (ht : alookup tm t = some td0) :
    ∃ doc2, remove_assets doc g a t = .ok doc2 ∧
      docTagEntry doc2 g a t = none ∧
      ((aerase tm t).isEmpty = true → docAssetEntry doc2 g a = none) ∧
      ((aerase tm t).isEmpty = true → (aerase am a).isEmpty = true →
        docGenomeEntry doc2 g = none) ∧
      ((aerase tm t).isEmpty = true → (aerase am a).isEmpty = true →
        (aerase gm g).isEmpty = true → doc2.genomes = none) ∧
      ((aerase tm t).isEmpty = false → ∃ ae2,
        docAssetEntry doc2 g a = some ae2 ∧
        ae2.default_tag = (if ae.default_tag = some t then none
                           else ae.default_tag) ∧
        ae2.tags = some (aerase tm t)) := by
  by_cases hsur : (aerase tm t).isEmpty = false
  · refine ⟨_, remove_assets_survive doc gm g a t ge am ae tm td0 hgm hg hge ha
      hae ht hsur, ?_, ?_, ?_, ?_, ?_⟩
    · simp [docTagEntry, getTagEntry, getAssetEntry, alookup_aset_self,
        alookup_aerase_self]
    · intro hc; simp [hsur] at hc
    · intro hc; simp [hsur] at hc
    · intro hc; simp [hsur] at hc
    · intro _
      exact ⟨{ ae with tags := some (aerase tm t), default_tag := if ae.default_tag = some t then none else ae.default_tag }, by simp [docAssetEntry, getAssetEntry, alookup_aset_self], rfl, rfl⟩
  · have hemp : (aerase tm t).isEmpty = true := by
      cases h2 : (aerase tm t).isEmpty
      · exact absurd h2 hsur
      · rfl
    by_cases hamne : (aerase am a).isEmpty = false
    · refine ⟨_, remove_assets_cascade_asset doc gm g a t ge am ae tm td0 hgm hg
        hge ha hae ht hemp hamne, ?_, ?_, ?_, ?_, ?_⟩
      · simp [docTagEntry, getTagEntry, getAssetEntry, alookup_aset_self,
          alookup_aerase_self]
      · intro _
        simp [docAssetEntry, getAssetEntry, alookup_aset_self, alookup_aerase_self]
      · intro _ hc; simp [hamne] at hc
      · intro _ hc; simp [hamne] at hc
      · intro hc; simp [hemp] at hc
    · have hame : (aerase am a).isEmpty = true := by
        cases h2 : (aerase am a).isEmpty
        · exact absurd h2 hamne
        · rfl
      refine ⟨_, remove_assets_cascade_genome doc gm g a t ge am ae tm td0 hgm hg
        hge ha hae ht hemp hame, ?_, ?_, ?_, ?_, ?_⟩
      · by_cases hgme : (aerase gm g).isEmpty = true
        · simp [docTagEntry, hgme]
        · simp [docTagEntry, hgme, getTagEntry, getAssetEntry, alookup_aerase_self]
      · intro _
        by_cases hgme : (aerase gm g).isEmpty = true
        · simp [docAssetEntry, hgme]
        · simp [docAssetEntry, hgme, getAssetEntry, alookup_aerase_self]
      · intro _ _
        by_cases hgme : (aerase gm g).isEmpty = true
        · simp [docGenomeEntry, hgme]
        · simp [docGenomeEntry, hgme, alookup_aerase_self]
      · intro _ _ hgme
        simp [hgme]
      · intro hc; simp [hemp] at hc

/-- C4 witness: removing the default tag t of the two-tag asset keeps
the asset, deletes the tag entry and clears the default pointer. -/
theorem c4_witness :
    (exTwoTagsDoc.genomes = some exTwoTagsGm ∧
     alookup exTwoTagsGm "g" = some { attrs := [], assets := some [("a", exTwoTagsAsset)] } ∧
     alookup [("a", exTwoTagsAsset)] "a" = some exTwoTagsAsset ∧
     alookup [("t", exTagSalmon), ("u", exTagSalmon)] "t" = some exTagSalmon) ∧
    (∃ doc2, remove_assets exTwoTagsDoc "g" "a" "t" = .ok doc2 ∧
      docTagEntry doc2 "g" "a" "t" = none ∧
      ((aerase [("t", exTagSalmon), ("u", exTagSalmon)] "t").isEmpty = true →
        docAssetEntry doc2 "g" "a" = none) ∧
      ((aerase [("t", exTagSalmon), ("u", exTagSalmon)] "t").isEmpty = true →
        (aerase [("a", exTwoTagsAsset)] "a").isEmpty = true →
        docGenomeEntry doc2 "g" = none) ∧
      ((aerase [("t", exTagSalmon), ("u", exTagSalmon)] "t").isEmpty = true →
        (aerase [("a", exTwoTagsAsset)] "a").isEmpty = true →
        (aerase exTwoTagsGm "g").isEmpty = true → doc2.genomes = none) ∧
      ((aerase [("t", exTagSalmon), ("u", exTagSalmon)] "t").isEmpty = false →
        ∃ ae2, docAssetEntry doc2 "g" "a" = some ae2 ∧
          ae2.default_tag = (if exTwoTagsAsset.default_tag = some "t" then none
                             else exTwoTagsAsset.default_tag) ∧
          ae2.tags = some (aerase [("t", exTagSalmon), ("u", exTagSalmon)] "t"))) :=
  ⟨⟨rfl, rfl, rfl, rfl⟩,
    c4_remove_assets_cascade exTwoTagsDoc exTwoTagsGm "g" "a" "t" _ _ _ _ _
      rfl rfl rfl rfl rfl rfl⟩

/-! ### Pull pipeline lemmas (claims C2, C5, C8) -/

theorem docEta (doc : RefGenConf) (gm : GenomesMap) (h : doc.genomes = some gm) :
    ({ doc with genomes := some gm } : RefGenConf) = doc := by
  cases doc
  simp_all

theorem pull_asset_not_existing (env : PullEnv) (doc : RefGenConf)
    (files : List String) (g a t : String) (force : Option Bool)
    (h : files.contains (pjoin2 (pjoin2 (pjoin2 doc.genome_folder g) a) t) = false) :
    pull_asset env doc files g a t force =
      pull_main env doc files g a t
        (pjoin2 (pjoin2 (pjoin2 doc.genome_folder g) a) t)
        (pjoin2 doc.genome_folder g)
        (pjoin2 (pjoin2 doc.genome_folder g) (a ++ "__" ++ t ++ ".tgz")) := by
  simp only [pull_asset, h, Bool.false_eq_true, if_false]

theorem pull_main_parent_abort (env : PullEnv) (doc : RefGenConf)
    (files : List String) (g a t tdir gdir fp : String) (gm gm2 : GenomesMap)
    (e : RgcError) (hgm : doc.genomes = some gm)
    (hpc : check_parents env.remoteDigest gm g env.archiveData.asset_parents =
      (gm2, some e)) :
    pull_main env doc files g a t tdir gdir fp =
      { res := .exn e, doc := { doc with genomes := some gm2 }, files := files } := by
  simp [pull_main, hgm, hpc]

theorem pull_main_size_abort (env : PullEnv) (doc : RefGenConf)
    (files : List String) (g a t tdir gdir fp sz : String) (gm : GenomesMap)
    (hgm : doc.genomes = some gm)
    (hpc : check_parents env.remoteDigest gm g env.archiveData.asset_parents =
      (gm, none))
    (hsz : env.archiveData.archive_size = some sz)
    (hlg : is_large_archive sz = .ok true)
    (hcf : env.confirmLarge = false) :
    pull_main env doc files g a t tdir gdir fp =
      { res := .ret a none, doc := doc, files := files } := by
  have he := docEta doc gm hgm
  simp [pull_main, hgm, hpc, hsz, hlg, hcf, he]

theorem pull_main_checksum_mismatch (env : PullEnv) (doc : RefGenConf)
    (files : List String) (g a t tdir gdir fp sz old : String) (gm : GenomesMap)
    (hgm : doc.genomes = some gm)
    (hpc : check_parents env.remoteDigest gm g env.archiveData.asset_parents =
      (gm, none))
    (hsz : env.archiveData.archive_size = some sz)
    (hlg : is_large_archive sz = .ok false)
    (hdl : env.dl = .ok)
    (hod : env.archiveData.archive_digest = some old)
    (hck : env.dlChecksum ≠ old) :
    pull_main env doc files g a t tdir gdir fp =
      { res := .ret a none, doc := doc,
        files := fp :: (if files.contains gdir then files else gdir :: files) } := by
  have he := docEta doc gm hgm
  simp [pull_main, hgm, hpc, hsz, hlg, hdl, hod, hck, he]

theorem check_parents_single_error (remote : String → String → String → String)
    (gm : GenomesMap) (genome ref : String) (e : RgcError)
    (h : check_asset_digest remote gm genome ref = .error e) :
    check_parents remote gm genome (some [ref]) = (gm, some e) := by
  simp [check_parents, h]

/-! ### Parent digest consistency (claim C2) -/

theorem assert_gat_of_exists_incomplete {gm : GenomesMap} {g a t : String}
    {td : TagData} (h : getTagEntry gm g a t = some td) :
    assert_gat_exists gm g (some a) (some t) true = .ok () := by
  obtain ⟨ge, am, ae, tm, hg, hge, ha, hae, ht⟩ := getTagEntry_some_iff.mp h
  simp [assert_gat_exists, hg, hge, ha, hae, ht]

theorem check_asset_digest_adopt (remote : String → String → String → String)
    (gm : GenomesMap) (genome pa pt ref : String)
    (href : prp ref = (pa, pt))
    (hmiss : getTagEntry gm genome pa pt = none) :
    check_asset_digest remote gm genome ref =
      .ok (update_tags gm genome pa pt
        (some { asset_digest := some (remote genome pa pt) })) := by
  simp [check_asset_digest, is_asset_complete, href, hmiss]

theorem check_asset_digest_mismatch (remote : String → String → String → String)
    (gm : GenomesMap) (genome pa pt ref ld : String) (td : TagData)
    (href : prp ref = (pa, pt))
    (h : getTagEntry gm genome pa pt = some td)
    (hd : td.asset_digest = some ld)
    (hne : remote genome pa pt ≠ ld) :
    check_asset_digest remote gm genome ref = .error .RefgenconfError := by
  cases hsk : td.seek_keys with
  | none =>
    have hassert := assert_gat_of_exists_incomplete h
    simp [check_asset_digest, is_asset_complete, href, h, hsk, hassert, hd, hne]
  | some sk =>
    have hassert := assert_gat_of_complete h (by rw [hsk]; rfl)
    simp [check_asset_digest, is_asset_complete, href, h, hsk, hassert, hd, hne]

theorem getTagEntry_update_tags_self (gm : GenomesMap) (g a t : String)
    (d : TagData) :
    ∃ base, getTagEntry (update_tags gm g a t (some d)) g a t =
      some (mergeTag base d) :=
  ⟨(alookup ((((alookup (((alookup gm g).getD {}).assets.getD []) a).getD
      {}).tags).getD []) t).getD {},
    by simp [update_tags, getTagEntry, getAssetEntry, alookup_aset_self]⟩

/-- C2 amended: a parent whose tag entry is missing entirely has the
remote digest adopted and the pull continues; a parent entry that
exists, complete or not, has its recorded digest compared, and a
mismatch makes the whole pull abort with the hard RefgenconfError
before any download, with the document and the filesystem left exactly
as they were. -/
theorem c2_parent_digest_check_amended
    (remote : String → String → String → String) (gm : GenomesMap)
    (g pa pt ref : String) (href : prp ref = (pa, pt)) :
    (getTagEntry gm g pa pt = none →
      ∃ gm2 td2, check_asset_digest remote gm g ref = .ok gm2 ∧
        getTagEntry gm2 g pa pt = some td2 ∧
        td2.asset_digest = some (remote g pa pt)) ∧
    (∀ td ld, getTagEntry gm g pa pt = some td → td.asset_digest = some ld →
      remote g pa pt ≠ ld →
      check_asset_digest remote gm g ref = .error .RefgenconfError) ∧
    (∀ env doc files a t force, doc.genomes = some gm →
      env.remoteDigest = remote →
      env.archiveData.asset_parents = some [ref] →
      files.contains (pjoin2 (pjoin2 (pjoin2 doc.genome_folder g) a) t) = false →
      check_asset_digest remote gm g ref = .error .RefgenconfError →
      pull_asset env doc files g a t force =
        { res := .exn .RefgenconfError, doc := doc, files := files }) := by
  refine ⟨fun hmiss => ?_, fun td ld h hd hne =>
    check_asset_digest_mismatch remote gm g pa pt ref ld td href h hd hne,
    fun env doc files a t force hgm hrd hpar hnotex hbad => ?_⟩
  · obtain ⟨base, hb⟩ := getTagEntry_update_tags_self gm g pa pt
      { asset_digest := some (remote g pa pt) }
    exact ⟨_, _, check_asset_digest_adopt remote gm g pa pt ref href hmiss, hb,
      by simp [mergeTag]⟩
  · have hone : check_parents env.remoteDigest gm g
        env.archiveData.asset_parents = (gm, some .RefgenconfError) := by
      rw [hrd, hpar]
      exact check_parents_single_error remote gm g ref .RefgenconfError hbad
    rw [pull_asset_not_existing env doc files g a t force hnotex,
      pull_main_parent_abort env doc files g a t _ _ _ gm gm .RefgenconfError hgm hone,
      docEta doc gm hgm]

/-- C2 counterexample: the parent entry inc:t of the example document
exists but is incomplete (no seek keys) and carries digest aaa; with a
remote digest bbb the claim calls for adopting the remote digest and
continuing, but the source compares and aborts with the hard error. -/
theorem c2_counterexample :
    is_asset_complete exGm "hg38" "inc" "t" = .ok false ∧
    check_asset_digest exRemoteBbb exGm "hg38" "inc:t" =
      .error .RefgenconfError := ⟨rfl, rfl⟩

/-- C2 amended witness: a mismatching incomplete parent aborts the
check at a concrete document. -/
theorem c2_amended_witness :
    getTagEntry exGm "hg38" "inc" "t" = some exTagIncomplete ∧
    exTagIncomplete.asset_digest = some "aaa" ∧
    exRemoteBbb "hg38" "inc" "t" ≠ "aaa" ∧
    check_asset_digest exRemoteBbb exGm "hg38" "inc:t" =
      .error .RefgenconfError :=
  ⟨rfl, rfl, by decide,
    (c2_parent_digest_check_amended exRemoteBbb exGm "hg38" "inc" "t" "inc:t"
      rfl).2.1 exTagIncomplete "aaa" rfl rfl (by decide)⟩

/-! ### Archive checksum mismatch (claim C5) -/

/-- C5 amended: on a checksum mismatch the pull returns the asset name
with a null path and the registry document exactly as the parent-check
phase left it, but the downloaded archive file is kept on disk rather
than discarded. -/
theorem c5_checksum_mismatch_amended (env : PullEnv) (doc : RefGenConf)
    (files : List String) (g a t sz old : String) (force : Option Bool)
    (gm : GenomesMap)
    (hgm : doc.genomes = some gm)
    (hnotex : files.contains
      (pjoin2 (pjoin2 (pjoin2 doc.genome_folder g) a) t) = false)
    (hpc : check_parents env.remoteDigest gm g env.archiveData.asset_parents =
      (gm, none))
    (hsz : env.archiveData.archive_size = some sz)
    (hlg : is_large_archive sz = .ok false)
    (hdl : env.dl = .ok)
    (hod : env.archiveData.archive_digest = some old)
    (hck : env.dlChecksum ≠ old) :
    (pull_asset env doc files g a t force).res = .ret a none ∧
    (pull_asset env doc files g a t force).doc = doc ∧
    pjoin2 (pjoin2 doc.genome_folder g) (a ++ "__" ++ t ++ ".tgz") ∈
      (pull_asset env doc files g a t force).files := by
  rw [pull_asset_not_existing env doc files g a t force hnotex,
    pull_main_checksum_mismatch env doc files g a t _ _ _ sz old gm hgm hpc hsz
      hlg hdl hod hck]
  exact ⟨rfl, rfl, List.mem_cons_self _ _⟩

/-- C5 counterexample: at a concrete mismatching pull the failure pair
is returned and the document untouched, but the downloaded archive
file is still among the extant paths, contradicting that it is
discarded. -/
theorem c5_counterexample :
    (pull_asset exEnvMismatch exDoc [] "hg38" "fasta" "v9" none).res =
      .ret "fasta" none ∧
    (pull_asset exEnvMismatch exDoc [] "hg38" "fasta" "v9" none).doc = exDoc ∧
    "/data/hg38/fasta__v9.tgz" ∈
      (pull_asset exEnvMismatch exDoc [] "hg38" "fasta" "v9" none).files := by
  refine ⟨rfl, rfl, ?_⟩
  decide

/-- C5 amended witness at the concrete mismatching pull. -/
theorem c5_amended_witness :
    exDoc.genomes = some exGm ∧
    exEnvMismatch.archiveData.archive_digest = some "chk" ∧
    exEnvMismatch.dlChecksum ≠ "chk" ∧
    ((pull_asset exEnvMismatch exDoc [] "hg38" "fasta" "v9" none).res =
        .ret "fasta" none ∧
      (pull_asset exEnvMismatch exDoc [] "hg38" "fasta" "v9" none).doc = exDoc ∧
      pjoin2 (pjoin2 exDoc.genome_folder "hg38") ("fasta" ++ "__" ++ "v9" ++ ".tgz") ∈
        (pull_asset exEnvMismatch exDoc [] "hg38" "fasta" "v9" none).files) :=
  ⟨rfl, rfl, by decide,
    c5_checksum_mismatch_amended exEnvMismatch exDoc [] "hg38" "fasta" "v9"
      "4GB" "chk" none exGm rfl rfl rfl rfl rfl rfl rfl (by decide)⟩

/-! ### Reference parsing and rewriting (retag machinery) -/

theorem splitOnChar_ne_nil (sep : Char) (cs : List Char) :
    splitOnChar sep cs ≠ [] := by
  cases cs with
  | nil => simp [splitOnChar]
  | cons c rest =>
    simp only [splitOnChar]
    cases h : splitOnChar sep rest with
    | nil => simp
    | cons hh tt => by_cases hc : c = sep <;> simp [hc]

theorem splitOnChar_of_not_mem (sep : Char) (cs : List Char) (h : sep ∉ cs) :
    splitOnChar sep cs = [cs] := by
  induction cs with
  | nil => rfl
  | cons c rest ih =>
    have hc : ¬c = sep := fun hc => h (hc ▸ List.mem_cons_self c rest)
    have hrest : sep ∉ rest := fun hr => h (List.mem_cons_of_mem _ hr)
    simp only [splitOnChar, ih hrest]
    rw [if_neg hc]

theorem splitOnChar_cons_sep (sep : Char) (ys : List Char) :
    splitOnChar sep (sep :: ys) = [] :: splitOnChar sep ys := by
  simp only [splitOnChar]
  cases h : splitOnChar sep ys with
  | nil => exact absurd h (splitOnChar_ne_nil sep ys)
  | cons hh tt => simp

theorem splitOnChar_append_not_mem (sep : Char) :
    ∀ (xs ys : List Char), sep ∉ xs →
      splitOnChar sep (xs ++ sep :: ys) = xs :: splitOnChar sep ys := by
  intro xs
  induction xs with
  | nil =>
    intro ys _
    simpa using splitOnChar_cons_sep sep ys
  | cons x xt ih =>
    intro ys h
    have hx : ¬x = sep := fun hc => h (hc ▸ List.mem_cons_self x xt)
    have hrest : sep ∉ xt := fun hr => h (List.mem_cons_of_mem _ hr)
    simp only [List.cons_append, splitOnChar, List.append_eq]
    rw [ih ys hrest]
    simp [hx]

theorem prp_serializeRef (i t : String) (hi : ':' ∉ i.data) (ht : ':' ∉ t.data) :
    prp (serializeRef i t) = (i, t) := by
  unfold prp serializeRef
  have hdata : (i ++ ":" ++ t).data = i.data ++ ':' :: t.data := by
    rw [data_append3]
    simp
  rw [hdata, splitOnChar_append_not_mem ':' i.data t.data hi,
    splitOnChar_of_not_mem ':' t.data ht]

theorem canonRef_serializeRef (i t : String) (hi : ':' ∉ i.data)
    (ht : ':' ∉ t.data) : canonRef (serializeRef i t) := by
  unfold canonRef
  rw [prp_serializeRef i t hi ht]

theorem canonRef_prp_eq {s : String} (hc : canonRef s) {a t : String}
    (ha : ':' ∉ a.data) (ht : ':' ∉ t.data) :
    prp s = (a, t) ↔ s = serializeRef a t := by
  constructor
  · intro h
    rw [← hc, h]
  · intro h
    rw [h, prp_serializeRef a t ha ht]

theorem rewriteRefs_canon (a t nt : String) (ha : ':' ∉ a.data)
    (ht : ':' ∉ t.data) (l : List String) (hl : ∀ s ∈ l, canonRef s) :
    rewriteRefs a t nt l = l.map (specRewrite a t nt) := by
  unfold rewriteRefs
  apply List.map_congr_left
  intro s hs
  have hc := hl s hs
  by_cases hm : (prp s).1 = a ∧ (prp s).2 = t
  · have hprp : prp s = (a, t) := Prod.ext_iff.mpr ⟨hm.1, hm.2⟩
    have hsat : s = serializeRef a t := (canonRef_prp_eq hc ha ht).mp hprp
    rw [if_pos hm, specRewrite, if_pos hsat]
  · have hsat : ¬s = serializeRef a t := by
      intro hcontra
      exact hm (by
        have := (canonRef_prp_eq hc ha ht).mpr hcontra
        exact ⟨by rw [this], by rw [this]⟩)
    rw [if_neg hm, specRewrite, if_neg hsat, hc]

theorem specRewrite_roundtrip (a t nt s : String) (hs : s ≠ serializeRef a nt) :
    specRewrite a nt t (specRewrite a t nt s) = s := by
  unfold specRewrite
  by_cases h1 : s = serializeRef a t
  · rw [if_pos h1, if_pos rfl, ← h1]
  · rw [if_neg h1, if_neg hs]

/-! ### modifyTag and setTagDirect characterization -/

theorem getTagEntry_modifyTag_self {gm : GenomesMap} {g a t : String}
    {td : TagData} (h : getTagEntry gm g a t = some td) (f : TagData → TagData) :
    getTagEntry (modifyTag gm g a t f) g a t = some (f td) := by
  obtain ⟨ge, am, ae, tm, hg, hge, ha, hae, ht⟩ := getTagEntry_some_iff.mp h
  simp only [modifyTag, hg, hge, ha, hae, ht]
  simp [getTagEntry, getAssetEntry, alookup_aset_self]

theorem getTagEntry_modifyTag_ne (gm : GenomesMap) (g a t : String)
    (f : TagData → TagData) (x y : String) (hne : ¬(x = a ∧ y = t)) :
    getTagEntry (modifyTag gm g a t f) g x y = getTagEntry gm g x y := by
  cases hg : alookup gm g with
  | none => simp only [modifyTag, hg]
  | some ge =>
    cases hge : ge.assets with
    | none => simp only [modifyTag, hg, hge]
    | some am =>
      cases ha : alookup am a with
      | none => simp only [modifyTag, hg, hge, ha]
      | some ae =>
        cases hae : ae.tags with
        | none => simp only [modifyTag, hg, hge, ha, hae]
        | some tm =>
          cases ht : alookup tm t with
          | none => simp only [modifyTag, hg, hge, ha, hae, ht]
          | some td =>
            simp only [modifyTag, hg, hge, ha, hae, ht]
            by_cases hx : x = a
            · subst hx
              have hy : y ≠ t := fun hc => hne ⟨rfl, hc⟩
              simp [getTagEntry, getAssetEntry, alookup_aset_self,
                alookup_aset_ne _ _ _ _ hy, hg, hge, ha, hae]
            · simp [getTagEntry, getAssetEntry, alookup_aset_self,
                alookup_aset_ne _ _ _ _ hx, hg, hge]

theorem alookup_modifyTag_ne (gm : GenomesMap) (g a t : String)
    (f : TagData → TagData) (g2 : String) (hne : g2 ≠ g) :
    alookup (modifyTag gm g a t f) g2 = alookup gm g2 := by
  cases hg : alookup gm g with
  | none => simp only [modifyTag, hg]
  | some ge =>
    cases hge : ge.assets with
    | none => simp only [modifyTag, hg, hge]
    | some am =>
      cases ha : alookup am a with
      | none => simp only [modifyTag, hg, hge, ha]
      | some ae =>
        cases hae : ae.tags with
        | none => simp only [modifyTag, hg, hge, ha, hae]
        | some tm =>
          cases ht : alookup tm t with
          | none => simp only [modifyTag, hg, hge, ha, hae, ht]
          | some td =>
            simp only [modifyTag, hg, hge, ha, hae, ht]
            exact alookup_aset_ne _ _ _ _ hne

theorem default_modifyTag (gm : GenomesMap) (g a t : String)
    (f : TagData → TagData) (x : String) :
    (getAssetEntry (modifyTag gm g a t f) g x).map AssetData.default_tag =
      (getAssetEntry gm g x).map AssetData.default_tag := by
  cases hg : alookup gm g with
  | none => simp only [modifyTag, hg]
  | some ge =>
    cases hge : ge.assets with
    | none => simp only [modifyTag, hg, hge]
    | some am =>
      cases ha : alookup am a with
      | none => simp only [modifyTag, hg, hge, ha]
      | some ae =>
        cases hae : ae.tags with
        | none => simp only [modifyTag, hg, hge, ha, hae]
        | some tm =>
          cases ht : alookup tm t with
          | none => simp only [modifyTag, hg, hge, ha, hae, ht]
          | some td =>
            simp only [modifyTag, hg, hge, ha, hae, ht]
            by_cases hx : x = a
            · subst hx
              simp [getAssetEntry, alookup_aset_self, hg, hge, ha]
            · simp [getAssetEntry, alookup_aset_self,
                alookup_aset_ne _ _ _ _ hx, hg, hge]

theorem getTagEntry_setTagDirect_self {gm : GenomesMap} {g a : String}
    (nt : String) (td : TagData) {ge : GenomeData}
    {am : List (String × AssetData)} {ae : AssetData}
    {tm : List (String × TagData)}
    (hg : alookup gm g = some ge) (hge : ge.assets = some am)
    (ha : alookup am a = some ae) (hae : ae.tags = some tm) :
    getTagEntry (setTagDirect gm g a nt td) g a nt = some td := by
  simp only [setTagDirect, hg, hge, ha, hae]
  simp [getTagEntry, getAssetEntry, alookup_aset_self]

theorem getTagEntry_setTagDirect_ne (gm : GenomesMap) (g a nt : String)
    (td : TagData) (x y : String) (hne : ¬(x = a ∧ y = nt)) :
    getTagEntry (setTagDirect gm g a nt td) g x y = getTagEntry gm g x y := by
  cases hg : alookup gm g with
  | none => simp only [setTagDirect, hg]
  | some ge =>
    cases hge : ge.assets with
    | none => simp only [setTagDirect, hg, hge]
    | some am =>
      cases ha : alookup am a with
      | none => simp only [setTagDirect, hg, hge, ha]
      | some ae =>
        cases hae : ae.tags with
        | none => simp only [setTagDirect, hg, hge, ha, hae]
        | some tm =>
          simp only [setTagDirect, hg, hge, ha, hae]
          by_cases hx : x = a
          · subst hx
            have hy : y ≠ nt := fun hc => hne ⟨rfl, hc⟩
            simp [getTagEntry, getAssetEntry, alookup_aset_self,
              alookup_aset_ne _ _ _ _ hy, hg, hge, ha, hae]
          · simp [getTagEntry, getAssetEntry, alookup_aset_self,
              alookup_aset_ne _ _ _ _ hx, hg, hge]

theorem alookup_setTagDirect_ne (gm : GenomesMap) (g a nt : String)
    (td : TagData) (g2 : String) (hne : g2 ≠ g) :
    alookup (setTagDirect gm g a nt td) g2 = alookup gm g2 := by
  cases hg : alookup gm g with
  | none => simp only [setTagDirect, hg]
  | some ge =>
    cases hge : ge.assets with
    | none => simp only [setTagDirect, hg, hge]
    | some am =>
      cases ha : alookup am a with
      | none => simp only [setTagDirect, hg, hge, ha]
      | some ae =>
        cases hae : ae.tags with
        | none => simp only [setTagDirect, hg, hge, ha, hae]
        | some tm =>
          simp only [setTagDirect, hg, hge, ha, hae]
          exact alookup_aset_ne _ _ _ _ hne

theorem default_setTagDirect (gm : GenomesMap) (g a nt : String) (td : TagData)
    (x : String) :
    (getAssetEntry (setTagDirect gm g a nt td) g x).map AssetData.default_tag =
      (getAssetEntry gm g x).map AssetData.default_tag := by
  cases hg : alookup gm g with
  | none => simp only [setTagDirect, hg]
  | some ge =>
    cases hge : ge.assets with
    | none => simp only [setTagDirect, hg, hge]
    | some am =>
      cases ha : alookup am a with
      | none => simp only [setTagDirect, hg, hge, ha]
      | some ae =>
        cases hae : ae.tags with
        | none => simp only [setTagDirect, hg, hge, ha, hae]
        | some tm =>
          simp only [setTagDirect, hg, hge, ha, hae]
          by_cases hx : x = a
          · subst hx
            simp [getAssetEntry, alookup_aset_self, hg, hge, ha]
          · simp [getAssetEntry, alookup_aset_self,
              alookup_aset_ne _ _ _ _ hx, hg, hge]

/-! ### Relative-update fold lemmas -/

theorem update_one_relative_ne (gm : GenomesMap) (g a t nt : String) (uc : Bool)
    (r x y : String) (hne : prp r ≠ (x, y)) :
    getTagEntry (update_one_relative gm g a t nt uc r) g x y =
      getTagEntry gm g x y := by
  unfold update_one_relative
  cases hr : getTagEntry gm g (prp r).1 (prp r).2 with
  | none => rfl
  | some rtd =>
    exact getTagEntry_modifyTag_ne gm g (prp r).1 (prp r).2 _ x y
      (fun hc => hne (Prod.ext_iff.mpr ⟨hc.1.symm, hc.2.symm⟩))

theorem update_one_relative_self (gm : GenomesMap) (g a t nt : String)
    (uc : Bool) (r : String) (rtd : TagData)
    (hr : getTagEntry gm g (prp r).1 (prp r).2 = some rtd) :
    getTagEntry (update_one_relative gm g a t nt uc r) g (prp r).1 (prp r).2 =
      some (relSet uc rtd (rewriteRefs a t nt ((relGet uc rtd).getD []))) := by
  unfold update_one_relative
  rw [hr]
  exact getTagEntry_modifyTag_self hr _

theorem alookup_update_one_relative_ne (gm : GenomesMap) (g a t nt : String)
    (uc : Bool) (r g2 : String) (hne : g2 ≠ g) :
    alookup (update_one_relative gm g a t nt uc r) g2 = alookup gm g2 := by
  unfold update_one_relative
  cases hr : getTagEntry gm g (prp r).1 (prp r).2 with
  | none => rfl
  | some rtd => exact alookup_modifyTag_ne gm g _ _ _ g2 hne

theorem default_update_one_relative (gm : GenomesMap) (g a t nt : String)
    (uc : Bool) (r x : String) :
    (getAssetEntry (update_one_relative gm g a t nt uc r) g x).map
        AssetData.default_tag =
      (getAssetEntry gm g x).map AssetData.default_tag := by
  unfold update_one_relative
  cases hr : getTagEntry gm g (prp r).1 (prp r).2 with
  | none => rfl
  | some rtd => exact default_modifyTag gm g _ _ _ x

theorem update_relatives_tags_cons (gm : GenomesMap) (g a t nt : String)
    (uc : Bool) (r : String) (rest : List String) :
    update_relatives_tags gm g a t nt (r :: rest) uc =
      update_relatives_tags (update_one_relative gm g a t nt uc r)
        g a t nt rest uc := rfl

theorem update_relatives_tags_frame (g a t nt : String) (uc : Bool) :
    ∀ (rs : List String) (gm : GenomesMap) (x y : String),
      (∀ r ∈ rs, prp r ≠ (x, y)) →
      getTagEntry (update_relatives_tags gm g a t nt rs uc) g x y =
        getTagEntry gm g x y := by
  intro rs
  induction rs with
  | nil => intro gm x y _; rfl
  | cons r rest ih =>
    intro gm x y h
    rw [update_relatives_tags_cons,
      ih _ x y (fun r2 hr2 => h r2 (List.mem_cons_of_mem _ hr2)),
      update_one_relative_ne gm g a t nt uc r x y (h r (List.mem_cons_self r rest))]

theorem alookup_update_relatives_ne (g a t nt : String) (uc : Bool) :
    ∀ (rs : List String) (gm : GenomesMap) (g2 : String), g2 ≠ g →
      alookup (update_relatives_tags gm g a t nt rs uc) g2 = alookup gm g2 := by
  intro rs
  induction rs with
  | nil => intro gm g2 _; rfl
  | cons r rest ih =>
    intro gm g2 h
    rw [update_relatives_tags_cons, ih _ g2 h,
      alookup_update_one_relative_ne gm g a t nt uc r g2 h]

theorem default_update_relatives (g a t nt : String) (uc : Bool) :
    ∀ (rs : List String) (gm : GenomesMap) (x : String),
      (getAssetEntry (update_relatives_tags gm g a t nt rs uc) g x).map
          AssetData.default_tag =
        (getAssetEntry gm g x).map AssetData.default_tag := by
  intro rs
  induction rs with
  | nil => intro gm x; rfl
  | cons r rest ih =>
    intro gm x
    rw [update_relatives_tags_cons, ih _ x,
      default_update_one_relative gm g a t nt uc r x]

theorem update_relatives_tags_mem (g a t nt : String) (uc : Bool) :
    ∀ (rs : List String) (gm : GenomesMap) (c : String) (td0 : TagData),
      c ∈ rs → (rs.map prp).Nodup →
      getTagEntry gm g (prp c).1 (prp c).2 = some td0 →
      getTagEntry (update_relatives_tags gm g a t nt rs uc) g (prp c).1
          (prp c).2 =
        some (relSet uc td0 (rewriteRefs a t nt ((relGet uc td0).getD []))) := by
  intro rs
  induction rs with
  | nil =>
    intro gm c td0 hmem
    cases hmem
  | cons r rest ih =>
    intro gm c td0 hmem hnd h
    rw [update_relatives_tags_cons]
    by_cases hrc : prp r = prp c
    · have hstep := update_one_relative_self gm g a t nt uc r td0 (by rw [hrc]; exact h)
      have hfr : ∀ r2 ∈ rest, prp r2 ≠ ((prp c).1, (prp c).2) := by
        intro r2 hr2 hc
        have hnotin : prp r ∉ rest.map prp := (List.nodup_cons.mp hnd).1
        exact hnotin (by
          rw [hrc]
          have : prp r2 = prp c := by
            rw [hc]
          exact this ▸ List.mem_map_of_mem prp hr2)
      rw [update_relatives_tags_frame g a t nt uc rest _ _ _ hfr]
      rw [← hrc] at h ⊢
      exact hstep
    · have hcr : c ∈ rest := by
        cases List.mem_cons.mp hmem with
        | inl hceq => exact absurd (congrArg prp hceq.symm) hrc
        | inr hin => exact hin
      have hpres : getTagEntry (update_one_relative gm g a t nt uc r) g (prp c).1
          (prp c).2 = some td0 := by
        rw [update_one_relative_ne gm g a t nt uc r _ _
          (fun hc => hrc (by rw [hc]))]
        exact h
      exact ih _ c td0 hcr (List.nodup_cons.mp hnd).2 hpres

/-! ### Retag master lemma -/

theorem getTagEntry_eq_of_chain {gm : GenomesMap} {g a : String}
    {ge : GenomeData} {am : List (String × AssetData)} {ae : AssetData}
    {tm : List (String × TagData)}
    (hg : alookup gm g = some ge) (hge : ge.assets = some am)
    (ha : alookup am a = some ae) (hae : ae.tags = some tm) (y : String) :
    getTagEntry gm g a y = alookup tm y := by
  simp [getTagEntry, getAssetEntry, hg, hge, ha, hae]

theorem set_default_pointer_force {gm : GenomesMap} {g a : String}
    {ae : AssetData} (t : String) (h : getAssetEntry gm g a = some ae) :
    set_default_pointer gm g a t true = .ok (update_assets gm g a (some t)) := by
  have hassert := assert_ga_of_exists h
  simp [set_default_pointer, hassert, h]

theorem getTagEntry_update_assets_exists {gm : GenomesMap} {g a : String}
    {ge : GenomeData} {am : List (String × AssetData)} {ae : AssetData}
    (d : Option String) (hg : alookup gm g = some ge) (hge : ge.assets = some am)
    (ha : alookup am a = some ae) (x y : String) :
    getTagEntry (update_assets gm g a d) g x y = getTagEntry gm g x y := by
  simp only [update_assets, hg, Option.getD_some, hge, ha]
  by_cases hx : x = a
  · subst hx
    cases d with
    | none =>
      simp [getTagEntry, getAssetEntry, alookup_aset_self, hg, hge, ha]
    | some dt =>
      simp [getTagEntry, getAssetEntry, alookup_aset_self, hg, hge, ha]
  · cases d with
    | none =>
      simp [getTagEntry, getAssetEntry, alookup_aset_self,
        alookup_aset_ne _ _ _ _ hx, hg, hge]
    | some dt =>
      simp [getTagEntry, getAssetEntry, alookup_aset_self,
        alookup_aset_ne _ _ _ _ hx, hg, hge]

theorem alookup_update_assets_ne (gm : GenomesMap) (g a : String)
    (d : Option String) (g2 : String) (h : g2 ≠ g) :
    alookup (update_assets gm g a d) g2 = alookup gm g2 := by
  simp only [update_assets]
  exact alookup_aset_ne _ _ _ _ h

/-- The remove-the-old-tag tail of tag_asset: with the new tag already
present, removal of the old one keeps the asset, deletes the old entry
and rewrites the default pointer as the source does. -/
theorem retag_tail (doc : RefGenConf) (gm3 : GenomesMap) (g a t nt : String)
    (td : TagData) (dt3 : Option String)
    (he3t : getTagEntry gm3 g a t = some td)
    (he3nt : getTagEntry gm3 g a nt = some td)
    (hnet : nt ≠ t)
    (hd3 : (getAssetEntry gm3 g a).map AssetData.default_tag = some dt3) :
    ∃ gmF, remove_assets { doc with genomes := some gm3 } g a t =
        .ok { genome_folder := doc.genome_folder, genomes := some gmF } ∧
      getTagEntry gmF g a nt = some td ∧
      getTagEntry gmF g a t = none ∧
      (∀ x y, ¬(x = a ∧ y = t) → getTagEntry gmF g x y = getTagEntry gm3 g x y) ∧
      (∀ g2, g2 ≠ g → alookup gmF g2 = alookup gm3 g2) ∧
      (∃ aeF, getAssetEntry gmF g a = some aeF ∧
        aeF.default_tag = (if dt3 = some t then none else dt3)) := by
  obtain ⟨ge3, am3, ae3, tm3, hg3, hge3, ha3, hae3, ht3⟩ :=
    getTagEntry_some_iff.mp he3t
  have hA3 : getAssetEntry gm3 g a = some ae3 :=
    getAssetEntry_some_iff.mpr ⟨ge3, am3, hg3, hge3, ha3⟩
  have hdt3 : ae3.default_tag = dt3 := by
    rw [hA3] at hd3
    exact Option.some_injective _ hd3
  have ht3nt : alookup tm3 nt = some td := by
    rw [← getTagEntry_eq_of_chain hg3 hge3 ha3 hae3 nt]
    exact he3nt
  have hne3 : (aerase tm3 t).isEmpty = false := by
    have : alookup (aerase tm3 t) nt = some td := by
      rw [alookup_aerase_ne tm3 t nt hnet]
      exact ht3nt
    exact alookup_ne_nil this
  have hrm := remove_assets_survive { doc with genomes := some gm3 } gm3 g a t
    ge3 am3 ae3 tm3 td rfl hg3 hge3 ha3 hae3 ht3 hne3
  refine ⟨_, hrm, ?_, ?_, ?_, ?_, ?_⟩
  · rw [getTagEntry_eq_of_chain (alookup_aset_self gm3 g _) rfl
      (alookup_aset_self am3 a _) rfl nt, alookup_aerase_ne tm3 t nt hnet]
    exact ht3nt
  · rw [getTagEntry_eq_of_chain (alookup_aset_self gm3 g _) rfl
      (alookup_aset_self am3 a _) rfl t, alookup_aerase_self]
  · intro x y hxy
    by_cases hx : x = a
    · have hy : y ≠ t := fun hc => hxy ⟨hx, hc⟩
      rw [hx, getTagEntry_eq_of_chain (alookup_aset_self gm3 g _) rfl
        (alookup_aset_self am3 a _) rfl y, alookup_aerase_ne tm3 t y hy,
        getTagEntry_eq_of_chain hg3 hge3 ha3 hae3 y]
    · have h2 : ∀ v : AssetData, alookup (aset am3 a v) x = alookup am3 x :=
        fun v => alookup_aset_ne _ _ _ _ hx
      simp [getTagEntry, getAssetEntry, alookup_aset_self, h2, hg3, hge3]
  · intro g2 hg2
    exact alookup_aset_ne _ _ _ _ hg2
  · refine ⟨{ ae3 with tags := some (aerase tm3 t), default_tag := if ae3.default_tag = some t then none else ae3.default_tag }, ?_, ?_⟩
    · exact getAssetEntry_some_iff.mpr ⟨_, _, alookup_aset_self gm3 g _, rfl,
        alookup_aset_self am3 a _⟩
    · simp [hdt3]

/-- Reduction of a confirmed tag_asset run to its default-pointer
branch and the final removal, given the facts the earlier stages
produce. -/
theorem tag_asset_unfold (doc : RefGenConf) (gm : GenomesMap)
    (g a t nt : String) (ae0 : AssetData) (tm0 : List (String × TagData))
    (td : TagData) (children parents : List String) (gm1 : GenomesMap)
    (td1 : TagData) (ae2 : AssetData)
    (hgm : doc.genomes = some gm)
    (hassert : assert_gat_exists gm g (some a) (some t) false = .ok ())
    (hA0 : getAssetEntry gm g a = some ae0)
    (hae0 : ae0.tags = some tm0)
    (ht0 : alookup tm0 t = some td)
    (hch : td.asset_children.getD [] = children)
    (hpa : td.asset_parents.getD [] = parents)
    (hgm1 : (if (!children.isEmpty || !parents.isEmpty) = true then
        update_relatives_tags (update_relatives_tags gm g a t nt children false)
          g a t nt parents true
      else gm) = gm1)
    (htd1 : getTagEntry gm1 g a t = some td1)
    (hae2 : getAssetEntry (setTagDirect gm1 g a nt td1) g a = some ae2) :
    tag_asset doc g a t nt true =
      (match (if ae2.default_tag = some t
              then set_default_pointer (setTagDirect gm1 g a nt td1) g a nt true
              else .ok (setTagDirect gm1 g a nt td1)) with
       | .error e => .error e
       | .ok gm3 =>
         match remove_assets { doc with genomes := some gm3 } g a t with
         | .error e => .error e
         | .ok doc4 => .ok (doc4, true)) := by
  simp only [tag_asset, hgm, hassert, hA0, Option.getD_some, hae0, ht0, hch,
    hpa, Bool.not_true, Bool.and_false, Bool.false_eq_true, if_false, hgm1,
    htd1, hae2]

/-- Full characterization of a confirmed retag on a well-formed
document: the new tag carries the old payload, the old tag is gone,
every child reference has its parent list rewritten and every parent
reference its child list, everything else is untouched, and the default
pointer follows the old tag. -/
theorem retag_spec (doc : RefGenConf) (gm : GenomesMap) (g a t nt : String)
    (td : TagData) (children parents : List String)
    (hgm : doc.genomes = some gm)
    (htd : getTagEntry gm g a t = some td)
    (hcomp : td.seek_keys.isSome = true)
    (hnet : nt ≠ t)
    (hch : td.asset_children.getD [] = children)
    (hpa : td.asset_parents.getD [] = parents)
    (hchP : ∀ r ∈ children, prp r ≠ (a, t) ∧ prp r ≠ (a, nt) ∧
      (getTagEntry gm g (prp r).1 (prp r).2).isSome = true)
    (hpaP : ∀ r ∈ parents, prp r ≠ (a, t) ∧ prp r ≠ (a, nt) ∧
      (getTagEntry gm g (prp r).1 (prp r).2).isSome = true)
    (hndch : (children.map prp).Nodup)
    (hndpa : (parents.map prp).Nodup)
    (hdisj : ∀ rc ∈ children, ∀ rp ∈ parents, prp rc ≠ prp rp) :
    ∃ gmF, tag_asset doc g a t nt true =
        .ok ({ genome_folder := doc.genome_folder, genomes := some gmF }, true) ∧
      getTagEntry gmF g a nt = some td ∧
      getTagEntry gmF g a t = none ∧
      (∀ r ∈ children, ∃ td0,
        getTagEntry gm g (prp r).1 (prp r).2 = some td0 ∧
        getTagEntry gmF g (prp r).1 (prp r).2 =
          some { td0 with asset_parents := some (rewriteRefs a t nt (td0.asset_parents.getD [])) }) ∧
      (∀ r ∈ parents, ∃ td0,
        getTagEntry gm g (prp r).1 (prp r).2 = some td0 ∧
        getTagEntry gmF g (prp r).1 (prp r).2 =
          some { td0 with asset_children := some (rewriteRefs a t nt (td0.asset_children.getD [])) }) ∧
      (∀ x y, ¬(x = a ∧ y = t) → ¬(x = a ∧ y = nt) →
        (∀ r ∈ children, prp r ≠ (x, y)) → (∀ r ∈ parents, prp r ≠ (x, y)) →
        getTagEntry gmF g x y = getTagEntry gm g x y) ∧
      (∀ g2, g2 ≠ g → alookup gmF g2 = alookup gm g2) ∧
      (∃ ae0 aeF, getAssetEntry gm g a = some ae0 ∧
        getAssetEntry gmF g a = some aeF ∧
        aeF.default_tag = (if ae0.default_tag = some t then some nt
                           else ae0.default_tag)) := by
  have hconv : ∀ (p : String × String) (u v : String), p ≠ (u, v) →
      ¬(p.1 = u ∧ p.2 = v) :=
    fun p u v hp hc => hp (Prod.ext_iff.mpr hc)
  obtain ⟨ge0, am0, ae0, tm0, hg0, hge0, ha0, hae0, ht0⟩ :=
    getTagEntry_some_iff.mp htd
  have hA0 : getAssetEntry gm g a = some ae0 :=
    getAssetEntry_some_iff.mpr ⟨ge0, am0, hg0, hge0, ha0⟩
  have hassert := assert_gat_of_complete htd hcomp
  have hfr1 : ∀ x y, (∀ r ∈ children, prp r ≠ (x, y)) →
      (∀ r ∈ parents, prp r ≠ (x, y)) →
      getTagEntry (update_relatives_tags
        (update_relatives_tags gm g a t nt children false) g a t nt parents true)
        g x y = getTagEntry gm g x y := by
    intro x y h1 h2
    rw [update_relatives_tags_frame g a t nt true parents _ x y h2,
      update_relatives_tags_frame g a t nt false children gm x y h1]
  have he1 : getTagEntry (update_relatives_tags
      (update_relatives_tags gm g a t nt children false) g a t nt parents true)
      g a t = some td := by
    rw [hfr1 a t (fun r hr => (hchP r hr).1) (fun r hr => (hpaP r hr).1)]
    exact htd
  obtain ⟨ge1, am1, ae1, tm1, hg1, hge1, ha1, hae1, ht1⟩ :=
    getTagEntry_some_iff.mp he1
  have hdef1 : (getAssetEntry (update_relatives_tags
      (update_relatives_tags gm g a t nt children false) g a t nt parents true)
      g a).map AssetData.default_tag =
      (getAssetEntry gm g a).map AssetData.default_tag := by
    rw [default_update_relatives g a t nt true parents _ a,
      default_update_relatives g a t nt false children gm a]
  have hif : (if (!children.isEmpty || !parents.isEmpty) = true then
      update_relatives_tags (update_relatives_tags gm g a t nt children false)
        g a t nt parents true
    else gm) = update_relatives_tags
      (update_relatives_tags gm g a t nt children false) g a t nt parents true := by
    by_cases hc : (!children.isEmpty || !parents.isEmpty) = true
    · rw [if_pos hc]
    · rw [if_neg hc]
      cases hce : children.isEmpty with
      | false => exact absurd (by rw [hce]; rfl) hc
      | true =>
        cases hpe : parents.isEmpty with
        | false => exact absurd (by rw [hce, hpe]; rfl) hc
        | true =>
          obtain rfl : children = [] := List.isEmpty_iff.mp hce
          obtain rfl : parents = [] := List.isEmpty_iff.mp hpe
          rfl
  have hchild1 : ∀ r ∈ children, ∃ td0,
      getTagEntry gm g (prp r).1 (prp r).2 = some td0 ∧
      getTagEntry (update_relatives_tags
        (update_relatives_tags gm g a t nt children false) g a t nt parents true)
        g (prp r).1 (prp r).2 =
        some { td0 with asset_parents := some (rewriteRefs a t nt (td0.asset_parents.getD [])) } := by
    intro r hr
    obtain ⟨td0, htd0⟩ := Option.isSome_iff_exists.mp (hchP r hr).2.2
    refine ⟨td0, htd0, ?_⟩
    rw [update_relatives_tags_frame g a t nt true parents _ (prp r).1 (prp r).2
      (fun rp hrp => show prp rp ≠ ((prp r).1, (prp r).2) from (hdisj r hr rp hrp).symm)]
    rw [update_relatives_tags_mem g a t nt false children gm r td0 hr hndch htd0]
    simp [relSet, relGet]
  have hpar1 : ∀ r ∈ parents, ∃ td0,
      getTagEntry gm g (prp r).1 (prp r).2 = some td0 ∧
      getTagEntry (update_relatives_tags
        (update_relatives_tags gm g a t nt children false) g a t nt parents true)
        g (prp r).1 (prp r).2 =
        some { td0 with asset_children := some (rewriteRefs a t nt (td0.asset_children.getD [])) } := by
    intro r hr
    obtain ⟨td0, htd0⟩ := Option.isSome_iff_exists.mp (hpaP r hr).2.2
    refine ⟨td0, htd0, ?_⟩
    have hpres : getTagEntry (update_relatives_tags gm g a t nt children false)
        g (prp r).1 (prp r).2 = some td0 := by
      rw [update_relatives_tags_frame g a t nt false children gm (prp r).1 (prp r).2
        (fun rc hrc => show prp rc ≠ ((prp r).1, (prp r).2) from hdisj rc hrc r hr)]
      exact htd0
    rw [update_relatives_tags_mem g a t nt true parents _ r td0 hr hndpa hpres]
    simp [relSet, relGet]
  have hne_ant : ¬(a = a ∧ t = nt) := fun hc => hnet hc.2.symm
  have he2nt := getTagEntry_setTagDirect_self nt td hg1 hge1 ha1 hae1
  have he2fr := fun x y hxy => getTagEntry_setTagDirect_ne (update_relatives_tags
    (update_relatives_tags gm g a t nt children false) g a t nt parents true)
    g a nt td x y hxy
  have he2t : getTagEntry (setTagDirect (update_relatives_tags
      (update_relatives_tags gm g a t nt children false) g a t nt parents true)
      g a nt td) g a t = some td := by
    rw [he2fr a t hne_ant]
    exact he1
  obtain ⟨ge2, am2, ae2v, tm2, hg2, hge2, ha2, hae2c, ht2⟩ :=
    getTagEntry_some_iff.mp he2t
  have hA2 : getAssetEntry (setTagDirect (update_relatives_tags
      (update_relatives_tags gm g a t nt children false) g a t nt parents true)
      g a nt td) g a = some ae2v :=
    getAssetEntry_some_iff.mpr ⟨ge2, am2, hg2, hge2, ha2⟩
  have hdef2 : ae2v.default_tag = ae0.default_tag := by
    have h0 : (getAssetEntry (setTagDirect (update_relatives_tags
        (update_relatives_tags gm g a t nt children false) g a t nt parents true)
        g a nt td) g a).map AssetData.default_tag =
        (getAssetEntry gm g a).map AssetData.default_tag := by
      rw [default_setTagDirect _ g a nt td a]
      exact hdef1
    rw [hA2, hA0] at h0
    exact Option.some_injective _ h0
  have hrun0 := tag_asset_unfold doc gm g a t nt ae0 tm0 td children parents _
    td ae2v hgm hassert hA0 hae0 ht0 hch hpa hif he1 hA2
  have hgenfr : ∀ g2, g2 ≠ g → alookup (setTagDirect (update_relatives_tags
      (update_relatives_tags gm g a t nt children false) g a t nt parents true)
      g a nt td) g2 = alookup gm g2 := by
    intro g2 hg2
    rw [alookup_setTagDirect_ne _ g a nt td g2 hg2,
      alookup_update_relatives_ne g a t nt true parents _ g2 hg2,
      alookup_update_relatives_ne g a t nt false children gm g2 hg2]
  by_cases hd0 : ae0.default_tag = some t
  · have hcond : ae2v.default_tag = some t := by rw [hdef2]; exact hd0
    have hsdp := set_default_pointer_force nt hA2
    have he3all := fun x y => getTagEntry_update_assets_exists (some nt) hg2 hge2 ha2 x y
    have he3t : getTagEntry (update_assets (setTagDirect (update_relatives_tags
        (update_relatives_tags gm g a t nt children false) g a t nt parents true)
        g a nt td) g a (some nt)) g a t = some td := by
      rw [he3all]
      exact he2t
    have he3nt : getTagEntry (update_assets (setTagDirect (update_relatives_tags
        (update_relatives_tags gm g a t nt children false) g a t nt parents true)
        g a nt td) g a (some nt)) g a nt = some td := by
      rw [he3all]
      exact he2nt
    have hd3 : (getAssetEntry (update_assets (setTagDirect (update_relatives_tags
        (update_relatives_tags gm g a t nt children false) g a t nt parents true)
        g a nt td) g a (some nt)) g a).map AssetData.default_tag =
        some (some nt) := by
      rw [getAssetEntry_update_assets_self nt hA2]
      rfl
    obtain ⟨gmF, hrm, hFnt, hFt, hFfr, hFg2, aeF, hFa, hFd⟩ :=
      retag_tail doc _ g a t nt td (some nt) he3t he3nt hnet hd3
    have hrun : tag_asset doc g a t nt true =
        .ok ({ genome_folder := doc.genome_folder, genomes := some gmF }, true) := by
      rw [hrun0, if_pos hcond, hsdp]
      simp only [hrm]
    refine ⟨gmF, hrun, hFnt, hFt, ?_, ?_, ?_, ?_, ?_⟩
    · intro r hr
      obtain ⟨td0, htd0, hval⟩ := hchild1 r hr
      refine ⟨td0, htd0, ?_⟩
      rw [hFfr _ _ (hconv _ _ _ (hchP r hr).1), he3all,
        he2fr _ _ (hconv _ _ _ (hchP r hr).2.1)]
      exact hval
    · intro r hr
      obtain ⟨td0, htd0, hval⟩ := hpar1 r hr
      refine ⟨td0, htd0, ?_⟩
      rw [hFfr _ _ (hconv _ _ _ (hpaP r hr).1), he3all,
        he2fr _ _ (hconv _ _ _ (hpaP r hr).2.1)]
      exact hval
    · intro x y hxy1 hxy2 hch2 hpa2
      rw [hFfr _ _ hxy1, he3all, he2fr _ _ hxy2]
      exact hfr1 x y hch2 hpa2
    · intro g2 hg2
      rw [hFg2 g2 hg2, alookup_update_assets_ne _ g a (some nt) g2 hg2,
        hgenfr g2 hg2]
    · refine ⟨ae0, aeF, hA0, hFa, ?_⟩
      rw [hFd, if_pos hd0]
      have : ¬(some nt = some t) := by
        intro hc
        exact hnet (Option.some_injective _ hc)
      rw [if_neg this]
  · have hcond : ¬(ae2v.default_tag = some t) := by
      rw [hdef2]
      exact hd0
    have hd3 : (getAssetEntry (setTagDirect (update_relatives_tags
        (update_relatives_tags gm g a t nt children false) g a t nt parents true)
        g a nt td) g a).map AssetData.default_tag = some ae0.default_tag := by
      rw [hA2, Option.map_some', hdef2]
    obtain ⟨gmF, hrm, hFnt, hFt, hFfr, hFg2, aeF, hFa, hFd⟩ :=
      retag_tail doc _ g a t nt td ae0.default_tag he2t he2nt hnet hd3
    have hrun : tag_asset doc g a t nt true =
        .ok ({ genome_folder := doc.genome_folder, genomes := some gmF }, true) := by
      rw [hrun0, if_neg hcond]
      simp only [hrm]
    refine ⟨gmF, hrun, hFnt, hFt, ?_, ?_, ?_, ?_, ?_⟩
    · intro r hr
      obtain ⟨td0, htd0, hval⟩ := hchild1 r hr
      refine ⟨td0, htd0, ?_⟩
      rw [hFfr _ _ (hconv _ _ _ (hchP r hr).1),
        he2fr _ _ (hconv _ _ _ (hchP r hr).2.1)]
      exact hval
    · intro r hr
      obtain ⟨td0, htd0, hval⟩ := hpar1 r hr
      refine ⟨td0, htd0, ?_⟩
      rw [hFfr _ _ (hconv _ _ _ (hpaP r hr).1),
        he2fr _ _ (hconv _ _ _ (hpaP r hr).2.1)]
      exact hval
    · intro x y hxy1 hxy2 hch2 hpa2
      rw [hFfr _ _ hxy1, he2fr _ _ hxy2]
      exact hfr1 x y hch2 hpa2
    · intro g2 hg2
      rw [hFg2 g2 hg2, hgenfr g2 hg2]
    · refine ⟨ae0, aeF, hA0, hFa, ?_⟩
      rw [hFd, if_neg hd0, if_neg hd0]

/-- C1: on a document where the old tag exists (complete) and every
prompt is answered yes, tag_asset rewrites in each child of the old tag
the parent-list entry equal to asset:oldTag into asset:newTag, in each
parent the child-list entry likewise, deletes the old tag entry, gives
the new tag a payload identical to the original, and moves a default
pointer that named the old tag onto the new one.  The hypotheses state
the well-formedness the claim presupposes: the names are colon-free,
every reference on the old tag is canonical with a non-empty tag part
(so the source net-assignment the model embeds applies), points at an
existing tag other than the old and the new one, references parse to
pairwise distinct targets, and the relative lists of the referenced
tags hold canonical references. -/
theorem c1_tag_asset_postcondition (doc : RefGenConf) (gm : GenomesMap)
    (g a t nt : String) (td : TagData) (children parents : List String)
    (hgm : doc.genomes = some gm)
    (htd : getTagEntry gm g a t = some td)
    (hcomp : td.seek_keys.isSome = true)
    (hnet : nt ≠ t)
    (hna : ':' ∉ a.data) (hnt : ':' ∉ t.data) (_hnnt : ':' ∉ nt.data)
    (hch : td.asset_children.getD [] = children)
    (hpa : td.asset_parents.getD [] = parents)
    (hchP : ∀ r ∈ children, canonRef r ∧ (prp r).2 ≠ "" ∧ prp r ≠ (a, t) ∧
      prp r ≠ (a, nt) ∧ (getTagEntry gm g (prp r).1 (prp r).2).isSome = true)
    (hpaP : ∀ r ∈ parents, canonRef r ∧ (prp r).2 ≠ "" ∧ prp r ≠ (a, t) ∧
      prp r ≠ (a, nt) ∧ (getTagEntry gm g (prp r).1 (prp r).2).isSome = true)
    (hndch : (children.map prp).Nodup)
    (hndpa : (parents.map prp).Nodup)
    (hdisj : ∀ rc ∈ children, ∀ rp ∈ parents, prp rc ≠ prp rp)
    (hchL : ∀ r ∈ children, ∀ s ∈ tagParentsIn gm g (prp r).1 (prp r).2,
      canonRef s)
    (hpaL : ∀ r ∈ parents, ∀ s ∈ tagChildrenIn gm g (prp r).1 (prp r).2,
      canonRef s) :
    ∃ gmF, tag_asset doc g a t nt true =
        .ok ({ genome_folder := doc.genome_folder, genomes := some gmF }, true) ∧
      getTagEntry gmF g a nt = some td ∧
      getTagEntry gmF g a t = none ∧
      (∀ r ∈ children, tagParentsIn gmF g (prp r).1 (prp r).2 =
        (tagParentsIn gm g (prp r).1 (prp r).2).map (specRewrite a t nt)) ∧
      (∀ r ∈ parents, tagChildrenIn gmF g (prp r).1 (prp r).2 =
        (tagChildrenIn gm g (prp r).1 (prp r).2).map (specRewrite a t nt)) ∧
      (∃ ae0 aeF, getAssetEntry gm g a = some ae0 ∧
        getAssetEntry gmF g a = some aeF ∧
        (ae0.default_tag = some t → aeF.default_tag = some nt)) := by
  obtain ⟨gmF, hrun, hFnt, hFt, hFch, hFpa, _, _, ae0, aeF, hA0, hFa, hFd⟩ :=
    retag_spec doc gm g a t nt td children parents hgm htd hcomp hnet hch hpa
      (fun r hr => ⟨(hchP r hr).2.2.1, (hchP r hr).2.2.2.1, (hchP r hr).2.2.2.2⟩)
      (fun r hr => ⟨(hpaP r hr).2.2.1, (hpaP r hr).2.2.2.1, (hpaP r hr).2.2.2.2⟩)
      hndch hndpa hdisj
  refine ⟨gmF, hrun, hFnt, hFt, ?_, ?_, ⟨ae0, aeF, hA0, hFa, ?_⟩⟩
  · intro r hr
    obtain ⟨td0, htd0, hval⟩ := hFch r hr
    have hcan : ∀ s ∈ td0.asset_parents.getD [], canonRef s := by
      intro s hs
      apply hchL r hr
      simp only [tagParentsIn, htd0, Option.getD_some]
      exact hs
    simp only [tagParentsIn, htd0, hval, Option.getD_some]
    rw [rewriteRefs_canon a t nt hna hnt _ hcan]
  · intro r hr
    obtain ⟨td0, htd0, hval⟩ := hFpa r hr
    have hcan : ∀ s ∈ td0.asset_children.getD [], canonRef s := by
      intro s hs
      apply hpaL r hr
      simp only [tagChildrenIn, htd0, Option.getD_some]
      exact hs
    simp only [tagChildrenIn, htd0, hval, Option.getD_some]
    rw [rewriteRefs_canon a t nt hna hnt _ hcan]
  · intro hd0
    rw [hFd, if_pos hd0]

/-- C1 witness: retagging fasta default to v2 in the example document,
whose old tag has one child (bowtie:t1) and one parent (other:x). -/
theorem c1_witness :
    (exDoc.genomes = some exGm ∧
     getTagEntry exGm "hg38" "fasta" "default" = some exTagFasta ∧
     canonRef "bowtie:t1" ∧ canonRef "other:x") ∧
    (∃ gmF, tag_asset exDoc "hg38" "fasta" "default" "v2" true =
        .ok ({ genome_folder := exDoc.genome_folder, genomes := some gmF }, true) ∧
      getTagEntry gmF "hg38" "fasta" "v2" = some exTagFasta ∧
      getTagEntry gmF "hg38" "fasta" "default" = none ∧
      (∀ r ∈ ["bowtie:t1"], tagParentsIn gmF "hg38" (prp r).1 (prp r).2 =
        (tagParentsIn exGm "hg38" (prp r).1 (prp r).2).map
          (specRewrite "fasta" "default" "v2")) ∧
      (∀ r ∈ ["other:x"], tagChildrenIn gmF "hg38" (prp r).1 (prp r).2 =
        (tagChildrenIn exGm "hg38" (prp r).1 (prp r).2).map
          (specRewrite "fasta" "default" "v2")) ∧
      (∃ ae0 aeF, getAssetEntry exGm "hg38" "fasta" = some ae0 ∧
        getAssetEntry gmF "hg38" "fasta" = some aeF ∧
        (ae0.default_tag = some "default" → aeF.default_tag = some "v2"))) :=
  ⟨⟨rfl, rfl, by decide, by decide⟩,
    c1_tag_asset_postcondition exDoc exGm "hg38" "fasta" "default" "v2"
      exTagFasta ["bowtie:t1"] ["other:x"] rfl rfl rfl (by decide) (by decide)
      (by decide) (by decide) rfl rfl (by decide) (by decide) (by decide)
      (by decide) (by decide) (by decide) (by decide)⟩

/-- C3: retagging old to new and then new back to old restores the old
tag entry verbatim, removes the transient new tag, restores every
parent and child reference stored on the related tags, and restores the
default pointer.  Beyond the C1 well-formedness hypotheses, the related
tags must not already reference asset:newTag and the default pointer
must not already name newTag, matching the modulo-transient-existence
reading of the claim. -/
theorem c3_retag_roundtrip (doc : RefGenConf) (gm : GenomesMap)
    (g a t nt : String) (td : TagData) (children parents : List String)
    (hgm : doc.genomes = some gm)
    (htd : getTagEntry gm g a t = some td)
    (hcomp : td.seek_keys.isSome = true)
    (hnet : nt ≠ t)
    (hna : ':' ∉ a.data) (hnt : ':' ∉ t.data) (hnnt : ':' ∉ nt.data)
    (hch : td.asset_children.getD [] = children)
    (hpa : td.asset_parents.getD [] = parents)
    (hchP : ∀ r ∈ children, canonRef r ∧ (prp r).2 ≠ "" ∧ prp r ≠ (a, t) ∧
      prp r ≠ (a, nt) ∧ (getTagEntry gm g (prp r).1 (prp r).2).isSome = true)
    (hpaP : ∀ r ∈ parents, canonRef r ∧ (prp r).2 ≠ "" ∧ prp r ≠ (a, t) ∧
      prp r ≠ (a, nt) ∧ (getTagEntry gm g (prp r).1 (prp r).2).isSome = true)
    (hndch : (children.map prp).Nodup)
    (hndpa : (parents.map prp).Nodup)
    (hdisj : ∀ rc ∈ children, ∀ rp ∈ parents, prp rc ≠ prp rp)
    (hchL : ∀ r ∈ children, ∀ s ∈ tagParentsIn gm g (prp r).1 (prp r).2,
      canonRef s)
    (hpaL : ∀ r ∈ parents, ∀ s ∈ tagChildrenIn gm g (prp r).1 (prp r).2,
      canonRef s)
    (hchNoNew : ∀ r ∈ children, ∀ s ∈ tagParentsIn gm g (prp r).1 (prp r).2,
      s ≠ serializeRef a nt)
    (hpaNoNew : ∀ r ∈ parents, ∀ s ∈ tagChildrenIn gm g (prp r).1 (prp r).2,
      s ≠ serializeRef a nt)
    (hd0nt : ∀ ae0, getAssetEntry gm g a = some ae0 →
      ae0.default_tag ≠ some nt) :
    ∃ gmA gmB,
      tag_asset doc g a t nt true =
        .ok ({ genome_folder := doc.genome_folder, genomes := some gmA }, true) ∧
      tag_asset { genome_folder := doc.genome_folder, genomes := some gmA }
          g a nt t true =
        .ok ({ genome_folder := doc.genome_folder, genomes := some gmB }, true) ∧
      getTagEntry gmB g a t = some td ∧
      getTagEntry gmB g a nt = none ∧
      (∀ r ∈ children, tagParentsIn gmB g (prp r).1 (prp r).2 =
        tagParentsIn gm g (prp r).1 (prp r).2) ∧
      (∀ r ∈ parents, tagChildrenIn gmB g (prp r).1 (prp r).2 =
        tagChildrenIn gm g (prp r).1 (prp r).2) ∧
      (∃ ae0 aeB, getAssetEntry gm g a = some ae0 ∧
        getAssetEntry gmB g a = some aeB ∧
        aeB.default_tag = ae0.default_tag) := by
  obtain ⟨gmA, hrun1, hAnt, hAt, hAch, hApa, hAfr, hAg2, ae0, aeA, hA0, hAa, hAd⟩ :=
    retag_spec doc gm g a t nt td children parents hgm htd hcomp hnet hch hpa
      (fun r hr => ⟨(hchP r hr).2.2.1, (hchP r hr).2.2.2.1, (hchP r hr).2.2.2.2⟩)
      (fun r hr => ⟨(hpaP r hr).2.2.1, (hpaP r hr).2.2.2.1, (hpaP r hr).2.2.2.2⟩)
      hndch hndpa hdisj
  have h2ch : ∀ r ∈ children, prp r ≠ (a, nt) ∧ prp r ≠ (a, t) ∧
      (getTagEntry gmA g (prp r).1 (prp r).2).isSome = true := by
    intro r hr
    obtain ⟨td0, htd0, hval1⟩ := hAch r hr
    exact ⟨(hchP r hr).2.2.2.1, (hchP r hr).2.2.1, by rw [hval1]; rfl⟩
  have h2pa : ∀ r ∈ parents, prp r ≠ (a, nt) ∧ prp r ≠ (a, t) ∧
      (getTagEntry gmA g (prp r).1 (prp r).2).isSome = true := by
    intro r hr
    obtain ⟨td0, htd0, hval1⟩ := hApa r hr
    exact ⟨(hpaP r hr).2.2.2.1, (hpaP r hr).2.2.1, by rw [hval1]; rfl⟩
  obtain ⟨gmB, hrun2, hBt, hBnt, hBch, hBpa, hBfr, hBg2, aeA2, aeB, hA2', hBa, hBd⟩ :=
    retag_spec { genome_folder := doc.genome_folder, genomes := some gmA } gmA
      g a nt t td children parents rfl hAnt hcomp (fun hc => hnet hc.symm)
      hch hpa h2ch h2pa hndch hndpa hdisj
  refine ⟨gmA, gmB, hrun1, hrun2, hBt, hBnt, ?_, ?_, ?_⟩
  · intro r hr
    obtain ⟨td0, htd0, hval1⟩ := hAch r hr
    obtain ⟨td1, htd1, hval2⟩ := hBch r hr
    have heq1 : td1 = { td0 with asset_parents := some (rewriteRefs a t nt (td0.asset_parents.getD [])) } :=
      Option.some_injective _ (htd1.symm.trans hval1)
    have horig : tagParentsIn gm g (prp r).1 (prp r).2 =
        td0.asset_parents.getD [] := by
      simp [tagParentsIn, htd0]
    have hcan0 : ∀ s ∈ td0.asset_parents.getD [], canonRef s :=
      fun s hs => hchL r hr s (by rw [horig]; exact hs)
    have hnonew0 : ∀ s ∈ td0.asset_parents.getD [], s ≠ serializeRef a nt :=
      fun s hs => hchNoNew r hr s (by rw [horig]; exact hs)
    have hrw1 : rewriteRefs a t nt (td0.asset_parents.getD []) =
        (td0.asset_parents.getD []).map (specRewrite a t nt) :=
      rewriteRefs_canon a t nt hna hnt _ hcan0
    have hcanM : ∀ s ∈ (td0.asset_parents.getD []).map (specRewrite a t nt),
        canonRef s := by
      intro s hs
      obtain ⟨s0, hs0, rfl⟩ := List.mem_map.mp hs
      unfold specRewrite
      by_cases hc : s0 = serializeRef a t
      · rw [if_pos hc]
        exact canonRef_serializeRef a nt hna hnnt
      · rw [if_neg hc]
        exact hcan0 s0 hs0
    simp only [tagParentsIn, hval2, Option.getD_some, heq1, horig]
    rw [hrw1, rewriteRefs_canon a nt t hna hnnt _ hcanM, List.map_map]
    have hid : ∀ s0 ∈ td0.asset_parents.getD [],
        (specRewrite a nt t ∘ specRewrite a t nt) s0 = id s0 :=
      fun s0 hs0 => specRewrite_roundtrip a t nt s0 (hnonew0 s0 hs0)
    rw [List.map_congr_left hid, List.map_id]
    simp [htd0]
  · intro r hr
    obtain ⟨td0, htd0, hval1⟩ := hApa r hr
    obtain ⟨td1, htd1, hval2⟩ := hBpa r hr
    have heq1 : td1 = { td0 with asset_children := some (rewriteRefs a t nt (td0.asset_children.getD [])) } :=
      Option.some_injective _ (htd1.symm.trans hval1)
    have horig : tagChildrenIn gm g (prp r).1 (prp r).2 =
        td0.asset_children.getD [] := by
      simp [tagChildrenIn, htd0]
    have hcan0 : ∀ s ∈ td0.asset_children.getD [], canonRef s :=
      fun s hs => hpaL r hr s (by rw [horig]; exact hs)
    have hnonew0 : ∀ s ∈ td0.asset_children.getD [], s ≠ serializeRef a nt :=
      fun s hs => hpaNoNew r hr s (by rw [horig]; exact hs)
    have hrw1 : rewriteRefs a t nt (td0.asset_children.getD []) =
        (td0.asset_children.getD []).map (specRewrite a t nt) :=
      rewriteRefs_canon a t nt hna hnt _ hcan0
    have hcanM : ∀ s ∈ (td0.asset_children.getD []).map (specRewrite a t nt),
        canonRef s := by
      intro s hs
      obtain ⟨s0, hs0, rfl⟩ := List.mem_map.mp hs
      unfold specRewrite
      by_cases hc : s0 = serializeRef a t
      · rw [if_pos hc]
        exact canonRef_serializeRef a nt hna hnnt
      · rw [if_neg hc]
        exact hcan0 s0 hs0
    simp only [tagChildrenIn, hval2, Option.getD_some, heq1, horig]
    rw [hrw1, rewriteRefs_canon a nt t hna hnnt _ hcanM, List.map_map]
    have hid : ∀ s0 ∈ td0.asset_children.getD [],
        (specRewrite a nt t ∘ specRewrite a t nt) s0 = id s0 :=
      fun s0 hs0 => specRewrite_roundtrip a t nt s0 (hnonew0 s0 hs0)
    rw [List.map_congr_left hid, List.map_id]
    simp [htd0]
  · refine ⟨ae0, aeB, hA0, hBa, ?_⟩
    have haeA : aeA2 = aeA := Option.some_injective _ (hA2'.symm.trans hAa)
    rw [hBd, haeA, hAd]
    by_cases hd0 : ae0.default_tag = some t
    · rw [if_pos hd0, if_pos rfl, hd0]
    · rw [if_neg hd0, if_neg (hd0nt ae0 hA0)]

/-- C3 witness: retagging fasta default to v2 and back in the example
document restores the tag payload, the related references and the
default pointer. -/
theorem c3_witness :
    (exDoc.genomes = some exGm ∧
     getTagEntry exGm "hg38" "fasta" "default" = some exTagFasta ∧
     ("v2" : String) ≠ "default") ∧
    (∃ gmA gmB,
      tag_asset exDoc "hg38" "fasta" "default" "v2" true =
        .ok ({ genome_folder := exDoc.genome_folder, genomes := some gmA }, true) ∧
      tag_asset { genome_folder := exDoc.genome_folder, genomes := some gmA }
          "hg38" "fasta" "v2" "default" true =
        .ok ({ genome_folder := exDoc.genome_folder, genomes := some gmB }, true) ∧
      getTagEntry gmB "hg38" "fasta" "default" = some exTagFasta ∧
      getTagEntry gmB "hg38" "fasta" "v2" = none ∧
      (∀ r ∈ ["bowtie:t1"], tagParentsIn gmB "hg38" (prp r).1 (prp r).2 =
        tagParentsIn exGm "hg38" (prp r).1 (prp r).2) ∧
      (∀ r ∈ ["other:x"], tagChildrenIn gmB "hg38" (prp r).1 (prp r).2 =
        tagChildrenIn exGm "hg38" (prp r).1 (prp r).2) ∧
      (∃ ae0 aeB, getAssetEntry exGm "hg38" "fasta" = some ae0 ∧
        getAssetEntry gmB "hg38" "fasta" = some aeB ∧
        aeB.default_tag = ae0.default_tag)) :=
  ⟨⟨rfl, rfl, by decide⟩,
    c3_retag_roundtrip exDoc exGm "hg38" "fasta" "default" "v2"
      exTagFasta ["bowtie:t1"] ["other:x"] rfl rfl rfl (by decide) (by decide)
      (by decide) (by decide) rfl rfl (by decide) (by decide) (by decide)
      (by decide) (by decide) (by decide) (by decide) (by decide) (by decide)
      (by decide)⟩

/-! ### Archive size threshold (claim C8) -/

/-- C8 counterexample: the string 5GB denotes at least five gigabytes,
so the claim requires confirmation for it, but the source uses a strict
comparison and does not flag it as large. -/
theorem c8_counterexample : is_large_archive "5GB" = .ok false := rfl

/-- C8 amended: the size-confirmation step of the pull pipeline asks
exactly for strings ending in TB (any value) or ending in GB with a
value strictly greater than five: 6GB is large, 4GB and 5GB are not,
every TB-suffixed string is, and a pull of a large archive with the
confirmation declined returns the asset with a null path, leaving the
document and filesystem untouched. -/
theorem c8_size_threshold_amended :
    is_large_archive "6GB" = .ok true ∧
    is_large_archive "4GB" = .ok false ∧
    is_large_archive "5GB" = .ok false ∧
    (∀ s : String, sEndsWith s "TB" = true → is_large_archive s = .ok true) ∧
    (∀ env doc files g a t force sz gm, doc.genomes = some gm →
      files.contains (pjoin2 (pjoin2 (pjoin2 doc.genome_folder g) a) t) = false →
      check_parents env.remoteDigest gm g env.archiveData.asset_parents =
        (gm, none) →
      env.archiveData.archive_size = some sz →
      is_large_archive sz = .ok true → env.confirmLarge = false →
      pull_asset env doc files g a t force =
        { res := .ret a none, doc := doc, files := files }) := by
  refine ⟨rfl, rfl, rfl, fun s h => by simp [is_large_archive, h],
    fun env doc files g a t force sz gm hgm hnotex hpc hsz hlg hcf => ?_⟩
  rw [pull_asset_not_existing env doc files g a t force hnotex,
    pull_main_size_abort env doc files g a t _ _ _ sz gm hgm hpc hsz hlg hcf]

/-- C8 witness: a TB-suffixed string is flagged as large. -/
theorem c8_witness :
    sEndsWith "0.5TB" "TB" = true ∧ is_large_archive "0.5TB" = .ok true :=
  ⟨by decide, c8_size_threshold_amended.2.2.2.1 "0.5TB" (by decide)⟩

/-! ### Missing parents key (claim C10) -/

/-- C10: when the remote metadata has no parent-references key, the
parent-digest comprehension evaluates the indexing before its guard and
pull_asset raises an uncaught KeyError instead of skipping the check. -/
theorem c10_missing_parents_keyerror :
    (pull_asset exEnvNoParents exDoc [] "hg38" "fasta" "default" none).res =
      PullRes.exn RgcError.KeyError := rfl

end RefGen
